import Mathlib

/-!
LOCA-MAT reservation / restitution engine: a shallow embedding of the core
data-access and business-logic functions of the repository
(src/dal/repository.py, src/bll/location_service.py), with theorems about
the reservation transaction, the restitution transaction, the pricing
engine and the risk classifier.

Modelling conventions:
- SQLAlchemy rows become Lean structures; the database becomes explicit
  lists of rows threaded through the functions; the SQLAlchemy session
  becomes a committed database plus an optional uncommitted pending view.
- Python `date` values are modelled by their proleptic-Gregorian ordinal
  (an integer); `(d2 - d1).days` is integer subtraction, as in Python.
- Python numeric amounts are modelled as exact rationals.  The pricing
  engine computes in binary floating point, so its arithmetic is modelled
  operation by operation: every intermediate result is rounded to the
  nearest IEEE-754 binary64 value by `fl`, and its float literals 0.10,
  0.15, 0.05 are taken at their exact binary64 values.  The remaining
  float operations of the core (the restitution's integer × 5.00, the
  Decimal daily-rate sums) are exact in binary64 over the program's value
  range and are carried exactly.  Python `round(x, 2)` and
  `Decimal.quantize` are modelled as decimal rounding half-to-even of the
  exact value, which is what Python performs.
- Exceptions become an explicit error type: each `raise` site of the
  source gets its own constructor carrying the payload of its message.
- Columns never consulted by the reservation/restitution core (contact
  strings, serial numbers, purchase dates, catalogue tables) are omitted
  from the row structures.
-/

namespace LocaMat

/-- ORM row of table client (src/dal/models.py). `cli_vip` is a nullable
Boolean column, hence `Option Bool`. -/
structure Client where
  cli_id : Nat
  cli_vip : Option Bool
  deriving Repr, DecidableEq

/-- ORM row of table materiel (src/dal/models.py): identifier, daily
rate (`mat_prix_jour`, a numeric amount) and status string, one of
"Disponible", "Loué", "En maintenance", "Rebut". -/
structure Materiel where
  mat_id : Nat
  mat_prix_jour : ℚ
  mat_statut : String
  deriving Repr, DecidableEq

/-- Modelled from the spec: the `Contrat` ORM class is imported by
src/dal/repository.py from dal.models but is not declared in the models
file under src; its fields (identifier, start date, end date, client)
follow the spec's Contract entity and the repository's usage. -/
structure Contrat where
  cont_id : Nat
  cont_dateDebut : ℤ
  cont_dateFin : ℤ
  cli_id : Nat
  deriving Repr, DecidableEq

/-- ORM row of table lignecontrat. Modelled from the spec: the
`lc_retard_jours` and `lc_penalite` columns are written by the repository
but not declared in src/dal/models.py; they follow the spec's `lateDays`
and `penaltyAmount` fields (null until restitution). -/
structure LigneContrat where
  lc_id : Nat
  lc_dateretourprevue : ℤ
  lc_dateretourreelle : Option ℤ
  lc_retard_jours : Option ℤ
  lc_penalite : Option ℚ
  cont_id : Nat
  mat_id : Nat
  deriving Repr, DecidableEq

/-- The database state: the rows of the tables the core touches, plus the
next primary-key values the store will assign on insert. -/
structure DB where
  clients : List Client
  materiels : List Materiel
  contrats : List Contrat
  lignes : List LigneContrat
  next_cont_id : Nat
  next_lc_id : Nat
  deriving Repr, DecidableEq

/-- A SQLAlchemy session: the committed database plus, when
`in_transaction()` holds, an uncommitted pending view that a rollback
discards. -/
structure Session where
  committed : DB
  pending : Option DB
  deriving Repr, DecidableEq

/-- Insertion into a list sorted by a natural-number key. -/
def insertByKey {α : Type} (key : α → Nat) (a : α) : List α → List α
  | [] => [a]
  | b :: reste => if key a ≤ key b then a :: b :: reste else b :: insertByKey key a reste

/-- Insertion sort by a natural-number key; models SQL `ORDER BY` on an
identifier column and Python `sorted` on identifier lists. -/
def sortByKey {α : Type} (key : α → Nat) (l : List α) : List α :=
  l.foldr (insertByKey key) []

/-- Decimal rounding half-to-even of an exact rational to an integer: the
rounding Python's `round` and `Decimal.quantize` perform. -/
def roundHalfEven (x : ℚ) : ℤ :=
  if x - ⌊x⌋ < 1/2 then ⌊x⌋
  else if 1/2 < x - ⌊x⌋ then ⌊x⌋ + 1
  else if ⌊x⌋ % 2 = 0 then ⌊x⌋ else ⌊x⌋ + 1

/-- Python `round(x, 2)` on an exactly represented value. -/
def round2 (x : ℚ) : ℚ :=
  (roundHalfEven (x * 100) : ℚ) / 100

/-- Modelled from the spec: rounding to 2 decimal places with "standard
half-up rounding", stated only for comparison with the code's `round2`. -/
def roundHalfUp2 (x : ℚ) : ℚ :=
  (⌊x * 100 + 1/2⌋ : ℚ) / 100

/-- Evaluation rule for `roundHalfEven` below the midpoint. -/
theorem roundHalfEven_of_lt (x : ℚ) (h : x - ⌊x⌋ < 1/2) :
    roundHalfEven x = ⌊x⌋ := by
  unfold roundHalfEven
  rw [if_pos h]

/-- Evaluation rule for `roundHalfEven` at a midpoint with an even floor:
the tie goes to the even neighbour, i.e. down. -/
theorem roundHalfEven_of_tie_even (x : ℚ) (h : x - ⌊x⌋ = 1/2)
    (he : ⌊x⌋ % 2 = 0) : roundHalfEven x = ⌊x⌋ := by
  unfold roundHalfEven
  rw [if_neg (by rw [h]; exact lt_irrefl _), if_neg (by rw [h]; exact lt_irrefl _),
    if_pos he]

/-- Evaluation rule for `roundHalfEven` above the midpoint. -/
theorem roundHalfEven_of_gt (x : ℚ) (h : 1/2 < x - ⌊x⌋) :
    roundHalfEven x = ⌊x⌋ + 1 := by
  unfold roundHalfEven
  rw [if_neg (not_lt.mpr (le_of_lt h)), if_pos h]

/-- Rounding of an exact rational to the nearest IEEE-754 binary64 value:
53-bit significand, round to nearest, ties to the even significand.  The
exponent is unbounded — the overflow and subnormal thresholds of binary64
are far outside every value the pricing pipeline handles, so they need no
modelling. -/
def fl (x : ℚ) : ℚ :=
  if x = 0 then 0
  else if 0 < x then
    (roundHalfEven (x * (2:ℚ) ^ ((52:ℤ) - Int.log 2 x)) : ℚ)
      * (2:ℚ) ^ (Int.log 2 x - 52)
  else
    -((roundHalfEven ((-x) * (2:ℚ) ^ ((52:ℤ) - Int.log 2 (-x))) : ℚ)
      * (2:ℚ) ^ (Int.log 2 (-x) - 52))

/-- Concrete determination of the binary exponent. -/
theorem int_log_eq (x : ℚ) (e : ℤ) (hx : 0 < x)
    (h1 : (2:ℚ) ^ e ≤ x) (h2 : x < (2:ℚ) ^ (e + 1)) :
    Int.log 2 x = e := by
  have ha : e ≤ Int.log 2 x :=
    (Int.zpow_le_iff_le_log (show (1:ℕ) < 2 from by norm_num) hx).mp
      (by exact_mod_cast h1)
  have hb : Int.log 2 x < e + 1 :=
    (Int.lt_zpow_iff_log_lt (show (1:ℕ) < 2 from by norm_num) hx).mp
      (by exact_mod_cast h2)
  omega

/-- Evaluation rule for `fl` on a positive rational whose binary exponent
and rounded significand are supplied. -/
theorem fl_eval (x : ℚ) (e m : ℤ) (hx : 0 < x)
    (h1 : (2:ℚ) ^ e ≤ x) (h2 : x < (2:ℚ) ^ (e + 1))
    (hm : roundHalfEven (x * (2:ℚ) ^ ((52:ℤ) - e)) = m) :
    fl x = (m : ℚ) * (2:ℚ) ^ (e - 52) := by
  unfold fl
  rw [if_neg (ne_of_gt hx), if_pos hx, int_log_eq x e hx h1 h2, hm]

/-- The binary64 value of the Python float literal 0.10. -/
def D10 : ℚ := 3602879701896397 / 36028797018963968

/-- The binary64 value of the Python float literal 0.15. -/
def D15 : ℚ := 5404319552844595 / 36028797018963968

/-- The binary64 value of the Python float literal 0.05. -/
def D05 : ℚ := 3602879701896397 / 72057594037927936

/-- One is a binary64 value. -/
theorem fl_un : fl 1 = 1 := by
  rw [fl_eval 1 0 4503599627370496 one_pos (by norm_num) (by norm_num) ?_]
  · norm_num
  · rw [show (1:ℚ) * (2:ℚ) ^ ((52:ℤ) - 0) = ((4503599627370496 : ℤ) : ℚ) from by
      norm_num]
    rw [roundHalfEven_of_lt _ (by rw [Int.floor_intCast]; norm_num), Int.floor_intCast]

/-- One half is a binary64 value. -/
theorem fl_demi : fl ((1:ℚ)/2) = 1/2 := by
  rw [fl_eval ((1:ℚ)/2) (-1) 4503599627370496 (by norm_num) (by norm_num)
    (by norm_num) ?_]
  · norm_num
  · rw [show (1:ℚ)/2 * (2:ℚ) ^ ((52:ℤ) - (-1)) = ((4503599627370496 : ℤ) : ℚ) from by
      norm_num]
    rw [roundHalfEven_of_lt _ (by rw [Int.floor_intCast]; norm_num), Int.floor_intCast]

/-- One eighth is a binary64 value. -/
theorem fl_huitieme : fl ((1:ℚ)/8) = 1/8 := by
  rw [fl_eval ((1:ℚ)/8) (-3) 4503599627370496 (by norm_num) (by norm_num)
    (by norm_num) ?_]
  · norm_num
  · rw [show (1:ℚ)/8 * (2:ℚ) ^ ((52:ℤ) - (-3)) = ((4503599627370496 : ℤ) : ℚ) from by
      norm_num]
    rw [roundHalfEven_of_lt _ (by rw [Int.floor_intCast]; norm_num), Int.floor_intCast]

/-- The binary64 subtraction 1 - 0.10 (the double written 0.9). -/
theorem fl_un_moins_D10 : fl (1 - D10) = 8106479329266893/9007199254740992 := by
  rw [fl_eval (1 - D10) (-1) 8106479329266893 (by norm_num [D10]) (by norm_num [D10])
    (by norm_num [D10]) ?_]
  · norm_num
  · rw [show (1 - D10) * (2:ℚ) ^ ((52:ℤ) - (-1)) = 32425917317067571/4 from by
      norm_num [D10]]
    rw [roundHalfEven_of_gt _ (by
      rw [show ⌊(32425917317067571:ℚ)/4⌋ = 8106479329266892 from by norm_num]
      norm_num)]
    rw [show ⌊(32425917317067571:ℚ)/4⌋ = 8106479329266892 from by norm_num]
    norm_num

/-- The binary64 product 500 × (1 - 0.10): exactly 450. -/
theorem fl_cinq_cents : fl ((1013309916158361625:ℚ)/2251799813685248) = 450 := by
  rw [fl_eval ((1013309916158361625:ℚ)/2251799813685248) 8 7916483719987200
    (by norm_num) (by norm_num) (by norm_num) ?_]
  · norm_num
  · rw [show (1013309916158361625:ℚ)/2251799813685248 * (2:ℚ) ^ ((52:ℤ) - 8)
      = 1013309916158361625/128 from by norm_num]
    rw [roundHalfEven_of_lt _ (by
      rw [show ⌊(1013309916158361625:ℚ)/128⌋ = 7916483719987200 from by norm_num]
      norm_num)]
    rw [show ⌊(1013309916158361625:ℚ)/128⌋ = 7916483719987200 from by norm_num]

/-- The binary64 subtraction 1 - 0.15 (the double written 0.85). -/
theorem fl_un_moins_D15 : fl (1 - D15) = 7656119366529843/9007199254740992 := by
  rw [fl_eval (1 - D15) (-1) 7656119366529843 (by norm_num [D15]) (by norm_num [D15])
    (by norm_num [D15]) ?_]
  · norm_num
  · rw [show (1 - D15) * (2:ℚ) ^ ((52:ℤ) - (-1)) = 30624477466119373/4 from by
      norm_num [D15]]
    rw [roundHalfEven_of_lt _ (by
      rw [show ⌊(30624477466119373:ℚ)/4⌋ = 7656119366529843 from by norm_num]
      norm_num)]
    rw [show ⌊(30624477466119373:ℚ)/4⌋ = 7656119366529843 from by norm_num]

/-- The binary64 product 450 × (1 - 0.15): exactly 382.5. -/
theorem fl_trois_cent : fl ((1722626857469214675:ℚ)/4503599627370496) = 765/2 := by
  rw [fl_eval ((1722626857469214675:ℚ)/4503599627370496) 8 6729011161989120
    (by norm_num) (by norm_num) (by norm_num) ?_]
  · norm_num
  · rw [show (1722626857469214675:ℚ)/4503599627370496 * (2:ℚ) ^ ((52:ℤ) - 8)
      = 1722626857469214675/256 from by norm_num]
    rw [roundHalfEven_of_gt _ (by
      rw [show ⌊(1722626857469214675:ℚ)/256⌋ = 6729011161989119 from by norm_num]
      norm_num)]
    rw [show ⌊(1722626857469214675:ℚ)/256⌋ = 6729011161989119 from by norm_num]
    norm_num

/-- The decimal 382.5 is a binary64 value. -/
theorem fl_trois_cent_fixe : fl ((765:ℚ)/2) = 765/2 := by
  rw [fl_eval ((765:ℚ)/2) 8 6729011161989120 (by norm_num) (by norm_num)
    (by norm_num) ?_]
  · norm_num
  · rw [show (765:ℚ)/2 * (2:ℚ) ^ ((52:ℤ) - 8) = ((6729011161989120 : ℤ) : ℚ) from by
      norm_num]
    rw [roundHalfEven_of_lt _ (by rw [Int.floor_intCast]; norm_num), Int.floor_intCast]

/-- The binary64 addition 1 + 0.05 (the double written 1.05). -/
theorem fl_un_plus_D05 : fl (1 + D05) = 4728779608739021/4503599627370496 := by
  rw [fl_eval (1 + D05) 0 4728779608739021 (by norm_num [D05]) (by norm_num [D05])
    (by norm_num [D05]) ?_]
  · norm_num
  · rw [show (1 + D05) * (2:ℚ) ^ ((52:ℤ) - 0) = 75660473739824333/16 from by
      norm_num [D05]]
    rw [roundHalfEven_of_gt _ (by
      rw [show ⌊(75660473739824333:ℚ)/16⌋ = 4728779608739020 from by norm_num]
      norm_num)]
    rw [show ⌊(75660473739824333:ℚ)/16⌋ = 4728779608739020 from by norm_num]
    norm_num

/-- The binary64 product 0.5 × (1 + 0.05): a representable halving. -/
theorem fl_produit_final : fl ((4728779608739021:ℚ)/9007199254740992)
    = 4728779608739021/9007199254740992 := by
  rw [fl_eval ((4728779608739021:ℚ)/9007199254740992) (-1) 4728779608739021
    (by norm_num) (by norm_num) (by norm_num) ?_]
  · norm_num
  · rw [show (4728779608739021:ℚ)/9007199254740992 * (2:ℚ) ^ ((52:ℤ) - (-1))
      = ((4728779608739021 : ℤ) : ℚ) from by norm_num]
    rw [roundHalfEven_of_lt _ (by rw [Int.floor_intCast]; norm_num), Int.floor_intCast]

/-- Price breakdown DTO returned to the UI
(src/bll/location_service.py, class PrixDetail). -/
structure PrixDetail where
  total_base : ℚ
  remise_duree : ℚ
  remise_vip : ℚ
  surcharge_risque : ℚ
  total_final : ℚ
  deriving Repr, DecidableEq

/-- Pricing engine (src/bll/location_service.py,
LocationService.calculer_prix): duration discount over 7 days, VIP
discount, risk surcharge, applied multiplicatively in this order, final
total rounded by Python `round(total, 2)`.  The source computes in
binary64 floats: the rate literals are the doubles `D10`, `D15`, `D05`,
and each `total = total * (...)` line performs one float subtraction (or
addition) and one float multiplication, each rounded by `fl`.  The
argument `total_base` stands for the exact value of the incoming double,
which is already representable. -/
def calculer_prix (total_base : ℚ) (nb_jours : ℤ) (client_vip client_risque : Bool) :
    PrixDetail :=
  let remise_duree : ℚ := if nb_jours > 7 then D10 else 0
  let remise_vip : ℚ := if client_vip then D15 else 0
  let surcharge_risque : ℚ := if client_risque then D05 else 0
  let total := total_base
  let total := fl (total * fl (1 - remise_duree))
  let total := fl (total * fl (1 - remise_vip))
  let total := fl (total * fl (1 + surcharge_risque))
  { total_base := total_base
    remise_duree := remise_duree
    remise_vip := remise_vip
    surcharge_risque := surcharge_risque
    total_final := round2 total }

/-- C2 counterexample: at baseTotal 1/8 (the float 0.125, exactly
representable), one day, non-VIP, non-risky, every float operation is
exact, and the code's final total is 0.12 (Python `round` ties to even)
while standard half-up rounding of the same product is 0.13 — the
claim's half-up rounding clause is false. -/
theorem calculer_prix_not_half_up :
    (calculer_prix (1/8) 1 false false).total_final = 12/100 ∧
    roundHalfUp2 ((1/8) * (1 - 0) * (1 - 0) * (1 + 0)) = 13/100 ∧
    ((12 : ℚ)/100) ≠ 13/100 := by
  refine ⟨?_, ?_, by norm_num⟩
  · show round2 (fl (fl (fl ((1 : ℚ)/8 * fl (1 - if (1 : ℤ) > 7 then D10 else 0))
      * fl (1 - if false = true then D15 else 0))
      * fl (1 + if false = true then D05 else 0))) = 12/100
    rw [if_neg (show ¬((1 : ℤ) > 7) from by norm_num), if_neg Bool.false_ne_true,
      if_neg Bool.false_ne_true]
    rw [show (1:ℚ) - 0 = 1 from by norm_num, show (1:ℚ) + 0 = 1 from by norm_num,
      fl_un]
    rw [show (1:ℚ)/8 * 1 = 1/8 from by norm_num, fl_huitieme]
    rw [show (1:ℚ)/8 * 1 = 1/8 from by norm_num, fl_huitieme]
    rw [show (1:ℚ)/8 * 1 = 1/8 from by norm_num, fl_huitieme]
    unfold round2
    rw [show (1:ℚ)/8 * 100 = 25/2 from by norm_num]
    rw [roundHalfEven_of_tie_even (25/2) (by norm_num) (by norm_num)]
    norm_num
  · unfold roundHalfUp2
    norm_num

/-- C2 (amended): the pricing engine computes in binary64 floating
point.  For every baseTotal ≥ 0 and duration ≥ 1 it returns the
breakdown whose durationDiscount is the double 0.10 when the duration
exceeds 7 days (else 0), vipDiscount the double 0.15 iff VIP,
riskSurcharge the double 0.05 iff risky, and whose final total is the
per-operation float product baseTotal × (1 − durationDiscount) ×
(1 − vipDiscount) × (1 + riskSurcharge), taken left to right with every
intermediate rounded to binary64, then rounded to 2 decimals
half-to-even (Python `round`) — not half-up, and not the exactly
computed product: 500, 10 days, VIP, non-risky still gives 382.50, but
0.5, 1 day, non-VIP, risky gives 0.53 where the exactly computed product
0.525 rounds (half-even) to 0.52. -/
theorem calculer_prix_spec (total_base : ℚ) (nb_jours : ℤ)
    (client_vip client_risque : Bool)
    (_h0 : 0 ≤ total_base) (_h1 : 1 ≤ nb_jours) :
    (calculer_prix total_base nb_jours client_vip client_risque =
      { total_base := total_base
        remise_duree := if nb_jours > 7 then D10 else 0
        remise_vip := if client_vip then D15 else 0
        surcharge_risque := if client_risque then D05 else 0
        total_final := round2 (fl (fl (fl (total_base
          * fl (1 - (if nb_jours > 7 then D10 else 0)))
          * fl (1 - (if client_vip then D15 else 0)))
          * fl (1 + (if client_risque then D05 else 0)))) }) ∧
    (calculer_prix 500 10 true false).total_final = 765/2 ∧
    (calculer_prix (1/2) 1 false true).total_final = 53/100 ∧
    round2 ((1:ℚ)/2 * (1 - 0) * (1 - 0) * (1 + 5/100)) = 52/100 ∧
    ((53 : ℚ)/100) ≠ 52/100 := by
  refine ⟨rfl, ?_, ?_, ?_, by norm_num⟩
  · show round2 (fl (fl (fl ((500 : ℚ) * fl (1 - if (10 : ℤ) > 7 then D10 else 0))
      * fl (1 - if true = true then D15 else 0))
      * fl (1 + if false = true then D05 else 0))) = 765/2
    rw [if_pos (show (10 : ℤ) > 7 from by norm_num), if_pos rfl,
      if_neg Bool.false_ne_true]
    rw [show (1:ℚ) + 0 = 1 from by norm_num, fl_un]
    rw [fl_un_moins_D10]
    rw [show (500:ℚ) * (8106479329266893/9007199254740992)
      = 1013309916158361625/2251799813685248 from by norm_num]
    rw [fl_cinq_cents]
    rw [fl_un_moins_D15]
    rw [show (450:ℚ) * (7656119366529843/9007199254740992)
      = 1722626857469214675/4503599627370496 from by norm_num]
    rw [fl_trois_cent]
    rw [show (765:ℚ)/2 * 1 = 765/2 from by norm_num]
    rw [fl_trois_cent_fixe]
    unfold round2
    rw [show (765:ℚ)/2 * 100 = ((38250 : ℤ) : ℚ) from by norm_num]
    rw [roundHalfEven_of_lt _ (by rw [Int.floor_intCast]; norm_num), Int.floor_intCast]
    norm_num
  · show round2 (fl (fl (fl ((1 : ℚ)/2 * fl (1 - if (1 : ℤ) > 7 then D10 else 0))
      * fl (1 - if false = true then D15 else 0))
      * fl (1 + if true = true then D05 else 0))) = 53/100
    rw [if_neg (show ¬((1 : ℤ) > 7) from by norm_num), if_neg Bool.false_ne_true,
      if_pos rfl]
    rw [show (1:ℚ) - 0 = 1 from by norm_num, fl_un]
    rw [show (1:ℚ)/2 * 1 = 1/2 from by norm_num, fl_demi]
    rw [show (1:ℚ)/2 * 1 = 1/2 from by norm_num, fl_demi]
    rw [fl_un_plus_D05]
    rw [show (1:ℚ)/2 * (4728779608739021/4503599627370496)
      = 4728779608739021/9007199254740992 from by norm_num]
    rw [fl_produit_final]
    unfold round2
    rw [show (4728779608739021:ℚ)/9007199254740992 * 100
      = 118219490218475525/2251799813685248 from by norm_num]
    rw [roundHalfEven_of_gt _ (by
      rw [show ⌊(118219490218475525:ℚ)/2251799813685248⌋ = 52 from by norm_num]
      norm_num)]
    rw [show ⌊(118219490218475525:ℚ)/2251799813685248⌋ = 52 from by norm_num]
    norm_num
  · unfold round2
    rw [show ((1:ℚ)/2 * (1 - 0) * (1 - 0) * (1 + 5/100)) * 100 = 105/2 from by
      norm_num]
    rw [roundHalfEven_of_tie_even ((105:ℚ)/2) (by norm_num) (by norm_num)]
    norm_num

/-- C2 witness: baseTotal 500, duration 10 days, VIP, non-risky gives
final total 382.50 (= 765/2). -/
theorem calculer_prix_spec_witness :
    (0 : ℚ) ≤ 500 ∧ (1 : ℤ) ≤ 10 ∧
    (calculer_prix 500 10 true false).total_final = 765/2 :=
  ⟨by norm_num, by norm_num,
    (calculer_prix_spec 500 10 true false (by norm_num) (by norm_num)).2.1⟩

/-- Failures of the core. Each distinct `raise` site of the source is one
constructor carrying the identifiers its message carries: the Python DAL
raises `ValueError` with a distinguishing message, the BLL raises
`LocationError`, and SQLAlchemy itself raises when `begin()` is entered
on a session already in a transaction. The spec's taxonomy maps the
wrong-state raises to `ConflictError` and the missing-row raises to
`NotFoundError`. -/
inductive CoreError where
  /-- DAL raise "Aucun matériel sélectionné." / "Aucune ligne sélectionnée." -/
  | emptySelection : CoreError
  /-- BLL LocationError "Dates invalides : la date de fin est avant la date de début." -/
  | invalidDates : CoreError
  /-- BLL LocationError "La durée doit être d'au moins 1 jour." -/
  | invalidDuration : CoreError
  /-- BLL LocationError "Veuillez choisir une date de retour réelle." -/
  | missingReturnDate : CoreError
  /-- DAL raise "Client introuvable." -/
  | clientNotFound : CoreError
  /-- DAL raise "Matériel(s) introuvable(s) : [sorted ids]" -/
  | materielsIntrouvables (ids : List Nat) : CoreError
  /-- DAL raise "Stock insuffisant : ... (IDs: [ids])." -/
  | stockInsuffisant (ids : List Nat) : CoreError
  /-- DAL raise "pricing_callback manquant (la BLL doit fournir calculer_prix)." -/
  | missingCallback : CoreError
  /-- DAL raise "Une ou plusieurs lignes sont introuvables." -/
  | lignesIntrouvables : CoreError
  /-- DAL raise "Ligne(s) déjà restituée(s) : [ids]" -/
  | dejaRestituees (ids : List Nat) : CoreError
  /-- SQLAlchemy InvalidRequestError: a transaction is already begun on this session. -/
  | transactionDejaOuverte : CoreError
  deriving Repr, DecidableEq

deriving instance DecidableEq for Except

/-- Ordering clause of a SELECT, when one is attached. -/
inductive OrderClause where
  | byIdAsc : OrderClause
  | byIdDesc : OrderClause
  deriving Repr, DecidableEq

/-- Shape of a row-locking SELECT built by the repository: an identifier
filter (`WHERE id IN (...)`), the FOR UPDATE flag, and the ORDER BY
clause when one is attached. -/
structure LockSelect where
  where_ids : List Nat
  with_for_update : Bool
  order_by : Option OrderClause
  deriving Repr, DecidableEq

/-- Statement built by get_materiels_by_ids_for_update
(src/dal/repository.py lines 110-125):
`select(Materiel).where(Materiel.mat_id.in_(mat_ids)).with_for_update()`.
No order_by is attached to it. -/
def materiels_for_update_stmt (mat_ids : List Nat) : LockSelect :=
  { where_ids := mat_ids, with_for_update := true, order_by := none }

/-- Statement built at step 1 of transaction_restituer_lignes
(src/dal/repository.py lines 526-531):
`select(LigneContrat).where(LigneContrat.lc_id.in_(lc_ids)).with_for_update()`.
No order_by is attached to it. -/
def lignes_for_update_stmt (lc_ids : List Nat) : LockSelect :=
  { where_ids := lc_ids, with_for_update := true, order_by := none }

/-- Execution of a materiel SELECT: the rows passing the identifier
filter, visited in table order when the statement has no ORDER BY and in
the requested order otherwise. -/
def runMaterielSelect (db : DB) (stmt : LockSelect) : List Materiel :=
  let rows := db.materiels.filter (fun m => stmt.where_ids.contains m.mat_id)
  match stmt.order_by with
  | none => rows
  | some .byIdAsc => sortByKey Materiel.mat_id rows
  | some .byIdDesc => (sortByKey Materiel.mat_id rows).reverse

/-- Execution of a contract-line SELECT, as for `runMaterielSelect`. -/
def runLigneSelect (db : DB) (stmt : LockSelect) : List LigneContrat :=
  let rows := db.lignes.filter (fun lc => stmt.where_ids.contains lc.lc_id)
  match stmt.order_by with
  | none => rows
  | some .byIdAsc => sortByKey LigneContrat.lc_id rows
  | some .byIdDesc => (sortByKey LigneContrat.lc_id rows).reverse

/-- get_materiels_by_ids_for_update (src/dal/repository.py): empty input
short-circuits to an empty list, otherwise the locking SELECT runs. -/
def get_materiels_by_ids_for_update (db : DB) (mat_ids : List Nat) : List Materiel :=
  if mat_ids.isEmpty then []
  else runMaterielSelect db (materiels_for_update_stmt mat_ids)

/-- get_lignes_by_contrat (src/dal/repository.py): the lines of one
contract, ordered by line identifier. -/
def get_lignes_by_contrat (db : DB) (cont_id : Nat) : List LigneContrat :=
  sortByKey LigneContrat.lc_id (db.lignes.filter (fun lc => lc.cont_id == cont_id))

/-- Accumulator step of `dernier_contrat`: keep the contract with the
greater identifier. -/
def pickDernier (acc : Option Contrat) (c : Contrat) : Option Contrat :=
  match acc with
  | none => some c
  | some a => if a.cont_id < c.cont_id then some c else some a

/-- The row selected by `order_by(Contrat.cont_id.desc()).limit(1)` over
a client's contracts (src/dal/repository.py, step 1 of
client_est_risque): the contract of that client with the greatest
identifier, none if the client has no contract. -/
def dernier_contrat (db : DB) (cli_id : Nat) : Option Contrat :=
  (db.contrats.filter (fun c => c.cli_id == cli_id)).foldl pickDernier none

/-- client_est_risque (src/dal/repository.py lines 167-194): false
without a prior contract, otherwise true iff some line of the latest
contract was returned strictly after its planned date. -/
def client_est_risque (db : DB) (cli_id : Nat) : Bool :=
  match dernier_contrat db cli_id with
  | none => false
  | some dernier =>
    (get_lignes_by_contrat db dernier.cont_id).any (fun lc =>
      match lc.lc_dateretourreelle with
      | none => false
      | some r => decide (lc.lc_dateretourprevue < r))

/-- Result triple of the reservation transaction. -/
structure ValiderResult where
  contrat : Contrat
  materiels : List Materiel
  prix : PrixDetail
  deriving Repr, DecidableEq

/-- Contract lines created at step 9 of transaction_valider_location: one
line per locked materiel, planned return at the contract end date, no
actual return yet, with fresh consecutive identifiers. -/
def lignes_pour (next_lc_id cont_id : Nat) (date_fin : ℤ) :
    List Materiel → List LigneContrat
  | [] => []
  | m :: reste =>
    { lc_id := next_lc_id
      lc_dateretourprevue := date_fin
      lc_dateretourreelle := none
      lc_retard_jours := none
      lc_penalite := none
      cont_id := cont_id
      mat_id := m.mat_id }
      :: lignes_pour (next_lc_id + 1) cont_id date_fin reste

/-- Transactional body of transaction_valider_location
(src/dal/repository.py lines 315-382), as a pure function of the
database: client lookup, lock of the requested materiels, existence and
availability checks, base-total and risk computation, pricing callback,
contract + line creation, status mutation to "Loué". -/
def valider_body (db : DB) (client_id : Nat) (materiel_ids : List Nat)
    (date_debut date_fin : ℤ) (nb_jours : ℤ)
    (pricing_callback : Option (ℚ → ℤ → Bool → Bool → PrixDetail)) :
    Except CoreError (DB × ValiderResult) :=
  match db.clients.find? (fun c => c.cli_id == client_id) with
  | none => .error .clientNotFound
  | some client =>
    let materiels := get_materiels_by_ids_for_update db materiel_ids
    let ids_trouves := materiels.map (fun m => m.mat_id)
    let ids_manquants := materiel_ids.dedup.filter (fun i => ! ids_trouves.contains i)
    if ids_manquants.isEmpty then
      let non_dispos := materiels.filter (fun m => m.mat_statut != "Disponible")
      if non_dispos.isEmpty then
        let total_base := materiels.foldl
          (fun acc m => acc + m.mat_prix_jour * (nb_jours : ℚ)) 0
        let client_risque := client_est_risque db client_id
        match pricing_callback with
        | none => .error .missingCallback
        | some calculer =>
          let prix_detail :=
            calculer total_base nb_jours (client.cli_vip.getD false) client_risque
          let contrat : Contrat :=
            { cont_id := db.next_cont_id
              cont_dateDebut := date_debut
              cont_dateFin := date_fin
              cli_id := client_id }
          let nouvelles := lignes_pour db.next_lc_id contrat.cont_id date_fin materiels
          let db2 : DB :=
            { db with
              contrats := db.contrats ++ [contrat]
              lignes := db.lignes ++ nouvelles
              materiels := db.materiels.map (fun m =>
                if materiel_ids.contains m.mat_id then { m with mat_statut := "Loué" } else m)
              next_cont_id := db.next_cont_id + 1
              next_lc_id := db.next_lc_id + nouvelles.length }
          .ok (db2, { contrat := contrat
                      materiels := materiels.map (fun m => { m with mat_statut := "Loué" })
                      prix := prix_detail })
      else .error (.stockInsuffisant (non_dispos.map (fun m => m.mat_id)))
    else .error (.materielsIntrouvables (sortByKey (fun i => i) ids_manquants))

/-- transaction_valider_location at the session level: the empty-selection
guard runs first; `with session.begin()` then raises if the session is
already in a transaction (SQLAlchemy 2.0 behaviour the source's
restitution comment quotes), otherwise the body runs on the committed
state, committing on success and rolling back on failure. -/
def transaction_valider_location (s : Session) (client_id : Nat)
    (materiel_ids : List Nat) (date_debut date_fin : ℤ) (nb_jours : ℤ)
    (pricing_callback : Option (ℚ → ℤ → Bool → Bool → PrixDetail)) :
    Session × Except CoreError ValiderResult :=
  if materiel_ids.isEmpty then (s, .error .emptySelection)
  else
    match s.pending with
    | some _ => (s, .error .transactionDejaOuverte)
    | none =>
      match valider_body s.committed client_id materiel_ids date_debut date_fin
          nb_jours pricing_callback with
      | .error e => ({ committed := s.committed, pending := none }, .error e)
      | .ok (db2, res) => ({ committed := db2, pending := none }, .ok res)

/-- LocationService.valider_location (src/bll/location_service.py):
date-order check, inclusive duration, then delegation to the DAL with
`calculer_prix` as the pricing callback. -/
def valider_location (s : Session) (client_id : Nat) (materiel_ids : List Nat)
    (date_debut date_fin : ℤ) : Session × Except CoreError ValiderResult :=
  if date_fin < date_debut then (s, .error .invalidDates)
  else
    let nb_jours : ℤ := (date_fin - date_debut) + 1
    if nb_jours ≤ 0 then (s, .error .invalidDuration)
    else
      transaction_valider_location s client_id materiel_ids date_debut date_fin
        nb_jours (some calculer_prix)

/-- Per-line mutation at step 5 of transaction_restituer_lignes: set the
actual return date, the non-negative lateness in days, and the penalty
`retard * 5.00` — the literal 5.00 of the source's "Règle simple :
5 €/jour" comment. -/
def restituer_maj (d : ℤ) (lc : LigneContrat) : LigneContrat :=
  let retard0 := d - lc.lc_dateretourprevue
  let retard := if retard0 < 0 then 0 else retard0
  { lc with
    lc_dateretourreelle := some d
    lc_retard_jours := some retard
    lc_penalite := some ((retard : ℚ) * 5) }

/-- Transactional body of transaction_restituer_lignes
(src/dal/repository.py lines 506-567): lock the selected lines, check
they all exist and none is already returned, lock their materiels, update
the lines and release the materiels to "Disponible". -/
def restituer_body (db : DB) (lc_ids : List Nat) (date_retour_reelle : ℤ) :
    Except CoreError (DB × List LigneContrat) :=
  let lignes := runLigneSelect db (lignes_for_update_stmt lc_ids)
  if lignes.length = lc_ids.dedup.length then
    let deja := (lignes.filter (fun lc => lc.lc_dateretourreelle.isSome)).map
      (fun lc => lc.lc_id)
    if deja.isEmpty then
      let mat_ids := lignes.map (fun lc => lc.mat_id)
      let db2 : DB :=
        { db with
          lignes := db.lignes.map (fun lc =>
            if lc_ids.contains lc.lc_id then restituer_maj date_retour_reelle lc else lc)
          materiels := db.materiels.map (fun m =>
            if mat_ids.contains m.mat_id then { m with mat_statut := "Disponible" } else m) }
      .ok (db2, lignes.map (restituer_maj date_retour_reelle))
    else .error (.dejaRestituees deja)
  else .error .lignesIntrouvables

/-- transaction_restituer_lignes at the session level: the empty-selection
guard runs first; then, if the session is already in a transaction, it is
rolled back — discarding the pending state — before `session.begin()`
runs the body on the committed state. -/
def transaction_restituer_lignes (s : Session) (lc_ids : List Nat)
    (date_retour_reelle : ℤ) : Session × Except CoreError (List LigneContrat) :=
  if lc_ids.isEmpty then (s, .error .emptySelection)
  else
    let s1 : Session := if s.pending.isSome then { committed := s.committed, pending := none } else s
    match restituer_body s1.committed lc_ids date_retour_reelle with
    | .error e => ({ committed := s1.committed, pending := none }, .error e)
    | .ok (db2, res) => ({ committed := db2, pending := none }, .ok res)

/-- LocationService.restituer (src/bll/location_service.py): the return
date is required, then the DAL transaction runs. -/
def restituer (s : Session) (lc_ids : List Nat) (date_retour_reelle : Option ℤ) :
    Session × Except CoreError (List LigneContrat) :=
  match date_retour_reelle with
  | none => (s, .error .missingReturnDate)
  | some d => transaction_restituer_lignes s lc_ids d

/-- LocationService.PENALITE_PAR_JOUR (src/bll/location_service.py), the
named penalty-rate constant: 5.00 currency units per late day. -/
def PENALITE_PAR_JOUR : ℚ := 5

/-- LocationService.calculer_retard_jours. -/
def calculer_retard_jours (date_prevue date_reelle : ℤ) : ℤ :=
  if date_reelle ≤ date_prevue then 0 else date_reelle - date_prevue

/-- LocationService.calculer_penalite:
`(PENALITE_PAR_JOUR * Decimal(retard)).quantize(Decimal("0.01"))`. -/
def calculer_penalite (retard_jours : ℤ) : ℚ :=
  round2 (PENALITE_PAR_JOUR * (retard_jours : ℚ))

/-- LocationService.calculer_retard_et_penalite. -/
def calculer_retard_et_penalite (date_prevue date_reelle : ℤ) : ℤ × ℚ :=
  (calculer_retard_jours date_prevue date_reelle,
   calculer_penalite (calculer_retard_jours date_prevue date_reelle))

/-- Membership is preserved by sorted insertion. -/
theorem mem_insertByKey {α : Type} (key : α → Nat) (a x : α) (l : List α) :
    x ∈ insertByKey key a l ↔ x = a ∨ x ∈ l := by
  induction l with
  | nil => simp [insertByKey]
  | cons b reste ih =>
    simp only [insertByKey]
    split
    · simp [List.mem_cons]
    · simp only [List.mem_cons, ih]
      tauto

/-- Membership is preserved by sorting. -/
theorem mem_sortByKey {α : Type} (key : α → Nat) (x : α) (l : List α) :
    x ∈ sortByKey key l ↔ x ∈ l := by
  induction l with
  | nil => simp [sortByKey]
  | cons b reste ih =>
    show x ∈ insertByKey key b (sortByKey key reste) ↔ _
    rw [mem_insertByKey]
    simp only [List.mem_cons]
    rw [ih]

/-- An empty database used by concrete witnesses. -/
def dbVide : DB :=
  { clients := []
    materiels := []
    contrats := []
    lignes := []
    next_cont_id := 1
    next_lc_id := 1 }

/-- A two-unit inventory stored in descending identifier order, used to
exhibit the table-order behaviour of the lock SELECT. -/
def dbDeuxUnites : DB :=
  { clients := []
    materiels := [{ mat_id := 2, mat_prix_jour := 10, mat_statut := "Disponible" },
      { mat_id := 1, mat_prix_jour := 10, mat_statut := "Disponible" }]
    contrats := []
    lignes := []
    next_cont_id := 1
    next_lc_id := 1 }

/-- C8: the row-locking SELECTs of both transactions filter by the
requested identifiers and request FOR UPDATE but attach no ORDER BY — no
deterministic ascending-identifier lock order is requested, and the
locked rows are visited in table order: on a table holding unit 2 before
unit 1, the lock SELECT for units 1 and 2 visits 2 first. -/
theorem lock_selects_have_no_order_by (ids : List Nat) :
    (materiels_for_update_stmt ids).order_by = none ∧
    (lignes_for_update_stmt ids).order_by = none ∧
    (materiels_for_update_stmt ids).with_for_update = true ∧
    (lignes_for_update_stmt ids).with_for_update = true ∧
    (runMaterielSelect dbDeuxUnites (materiels_for_update_stmt [1, 2])).map
      Materiel.mat_id = [2, 1] :=
  ⟨rfl, rfl, rfl, rfl, by decide⟩

/-- C10: called on a session with an open transaction and a non-empty
line set, transaction_restituer_lignes first rolls the session back,
discarding every pending uncommitted change — the call behaves exactly as
on the rolled-back session; transaction_valider_location performs no such
preliminary rollback: with an open transaction its `session.begin()`
raises and the pending state is kept untouched. -/
theorem restituer_rolls_back_pending (db p : DB) (lc_ids : List Nat) (d : ℤ)
    (cid : Nat) (ids : List Nat) (d1 d2 nb : ℤ)
    (cb : Option (ℚ → ℤ → Bool → Bool → PrixDetail))
    (hne : lc_ids ≠ []) (hne2 : ids ≠ []) :
    transaction_restituer_lignes { committed := db, pending := some p } lc_ids d =
      transaction_restituer_lignes { committed := db, pending := none } lc_ids d ∧
    transaction_valider_location { committed := db, pending := some p } cid ids
        d1 d2 nb cb =
      ({ committed := db, pending := some p }, .error .transactionDejaOuverte) := by
  have hE : lc_ids.isEmpty = false := by
    cases lc_ids
    · exact absurd rfl hne
    · rfl
  have hE2 : ids.isEmpty = false := by
    cases ids
    · exact absurd rfl hne2
    · rfl
  constructor
  · unfold transaction_restituer_lignes
    rw [hE]
    simp
  · unfold transaction_valider_location
    rw [hE2]
    simp

/-- C10 witness: one already-open session, line set [1], unit set [1]. -/
theorem restituer_rolls_back_pending_witness :
    transaction_restituer_lignes { committed := dbVide, pending := some dbVide } [1] 0 =
      transaction_restituer_lignes { committed := dbVide, pending := none } [1] 0 ∧
    transaction_valider_location { committed := dbVide, pending := some dbVide } 1 [1]
        0 0 1 none =
      ({ committed := dbVide, pending := some dbVide }, .error .transactionDejaOuverte) :=
  restituer_rolls_back_pending dbVide dbVide [1] 0 1 [1] 0 0 1 none
    (by decide) (by decide)

/-- One step of the latest-contract fold always yields a row, at least as
recent as both the candidate and the accumulator, and drawn from them. -/
theorem pickDernier_some (acc : Option Contrat) (c : Contrat) :
    ∃ y, pickDernier acc c = some y ∧ c.cont_id ≤ y.cont_id ∧
      (∀ a, acc = some a → a.cont_id ≤ y.cont_id) ∧ (y = c ∨ acc = some y) := by
  cases acc with
  | none =>
    refine ⟨c, rfl, le_refl _, ?_, Or.inl rfl⟩
    intro a ha
    cases ha
  | some a =>
    by_cases h : a.cont_id < c.cont_id
    · refine ⟨c, ?_, le_refl _, ?_, Or.inl rfl⟩
      · simp [pickDernier, h]
      · intro b hb
        cases hb
        exact le_of_lt h
    · refine ⟨a, ?_, Nat.le_of_not_lt h, ?_, Or.inr rfl⟩
      · simp [pickDernier, h]
      · intro b hb
        cases hb
        exact le_refl _

/-- The latest-contract fold returns an element of the list (or the
initial accumulator) whose identifier bounds every listed identifier. -/
theorem foldl_pickDernier_spec (l : List Contrat) :
    ∀ (acc : Option Contrat) (L : Contrat), l.foldl pickDernier acc = some L →
      (L ∈ l ∨ acc = some L) ∧ (∀ c ∈ l, c.cont_id ≤ L.cont_id) ∧
      (∀ a, acc = some a → a.cont_id ≤ L.cont_id) := by
  induction l with
  | nil =>
    intro acc L h
    simp only [List.foldl_nil] at h
    refine ⟨Or.inr h, by simp, ?_⟩
    intro a ha
    rw [ha] at h
    cases h
    exact le_refl _
  | cons c reste ih =>
    intro acc L h
    simp only [List.foldl_cons] at h
    obtain ⟨y, hy, hcy, hacc, hyor⟩ := pickDernier_some acc c
    rw [hy] at h
    obtain ⟨h1, h2, h3⟩ := ih (some y) L h
    have hyL : y.cont_id ≤ L.cont_id := h3 y rfl
    refine ⟨?_, ?_, ?_⟩
    · rcases h1 with hL | hL
      · exact Or.inl (List.mem_cons_of_mem _ hL)
      · cases hL
        rcases hyor with rfl | hacc2
        · exact Or.inl (List.mem_cons_self _ _)
        · exact Or.inr hacc2
    · intro x hx
      rcases List.mem_cons.mp hx with rfl | hx2
      · exact hcy.trans hyL
      · exact h2 x hx2
    · intro a ha
      exact (hacc a ha).trans hyL

/-- C7: the risk classifier returns false for a client with no contract;
otherwise the contract it inspects is the client's contract with the
greatest identifier, and the client is risky exactly when some line of
that single contract has an actual return date strictly after its planned
return date — lines of earlier contracts are never consulted. -/
theorem client_est_risque_spec (db : DB) (cli : Nat) :
    (db.contrats.filter (fun c => c.cli_id == cli) = [] →
      client_est_risque db cli = false) ∧
    (∀ L, dernier_contrat db cli = some L →
      L.cli_id = cli ∧ L ∈ db.contrats ∧
      (∀ c ∈ db.contrats, c.cli_id = cli → c.cont_id ≤ L.cont_id) ∧
      (client_est_risque db cli = true ↔
        ∃ lc ∈ db.lignes, lc.cont_id = L.cont_id ∧
          ∃ r, lc.lc_dateretourreelle = some r ∧ lc.lc_dateretourprevue < r)) := by
  constructor
  · intro hf
    unfold client_est_risque dernier_contrat
    rw [hf]
    rfl
  · intro L hL
    have hL2 : (db.contrats.filter (fun c => c.cli_id == cli)).foldl pickDernier none
        = some L := hL
    obtain ⟨h1, h2, _⟩ := foldl_pickDernier_spec _ none L hL2
    have hLf : L ∈ db.contrats.filter (fun c => c.cli_id == cli) := by
      rcases h1 with h | h
      · exact h
      · cases h
    have hLm := List.mem_filter.mp hLf
    refine ⟨by simpa using hLm.2, hLm.1, ?_, ?_⟩
    · intro c hc hceq
      exact h2 c (List.mem_filter.mpr ⟨hc, by simpa using hceq⟩)
    · unfold client_est_risque
      rw [hL]
      show (get_lignes_by_contrat db L.cont_id).any _ = true ↔ _
      rw [List.any_eq_true]
      constructor
      · rintro ⟨lc, hmem, hp⟩
        have hmem2 := List.mem_filter.mp ((mem_sortByKey _ _ _).mp hmem)
        refine ⟨lc, hmem2.1, by simpa using hmem2.2, ?_⟩
        cases hr : lc.lc_dateretourreelle with
        | none =>
          rw [hr] at hp
          exact absurd hp (by simp)
        | some r =>
          rw [hr] at hp
          exact ⟨r, rfl, of_decide_eq_true hp⟩
      · rintro ⟨lc, hmem, hcont, r, hr, hlt⟩
        refine ⟨lc, ?_, ?_⟩
        · exact (mem_sortByKey _ _ _).mpr
            (List.mem_filter.mpr ⟨hmem, by simpa using hcont⟩)
        · rw [hr]
          exact decide_eq_true hlt

/-- Database for the risk witness: client 1 returned late on contract 1
but on time on the more recent contract 2. -/
def dbRisque : DB :=
  { clients := [{ cli_id := 1, cli_vip := none }]
    materiels := []
    contrats := [{ cont_id := 1, cont_dateDebut := 0, cont_dateFin := 5, cli_id := 1 },
      { cont_id := 2, cont_dateDebut := 10, cont_dateFin := 15, cli_id := 1 }]
    lignes := [{ lc_id := 1, lc_dateretourprevue := 5, lc_dateretourreelle := some 8, lc_retard_jours := none, lc_penalite := none, cont_id := 1, mat_id := 1 },
      { lc_id := 2, lc_dateretourprevue := 15, lc_dateretourreelle := some 15, lc_retard_jours := none, lc_penalite := none, cont_id := 2, mat_id := 1 }]
    next_cont_id := 3
    next_lc_id := 3 }

/-- C7 witness: a late return on the older contract 1 does not make
client 1 risky, because only the latest contract 2 (returned on time) is
consulted. -/
theorem client_est_risque_spec_witness :
    client_est_risque dbRisque 1 = false ∧
    (∃ lc ∈ dbRisque.lignes, lc.cont_id = 1 ∧
      ∃ r, lc.lc_dateretourreelle = some r ∧ lc.lc_dateretourprevue < r) := by
  have h := (client_est_risque_spec dbRisque 1).2
    { cont_id := 2, cont_dateDebut := 10, cont_dateFin := 15, cli_id := 1 } (by decide)
  constructor
  · cases hv : client_est_risque dbRisque 1
    · rfl
    · exfalso
      obtain ⟨lc, hmem, hcont, r, hr, hlt⟩ := h.2.2.2.mp hv
      simp only [dbRisque, List.mem_cons, List.not_mem_nil, or_false] at hmem
      rcases hmem with rfl | rfl
      · exact absurd hcont (by decide)
      · cases hr
        exact absurd hlt (by decide)
  · exact ⟨{ lc_id := 1, lc_dateretourprevue := 5, lc_dateretourreelle := some 8, lc_retard_jours := none, lc_penalite := none, cont_id := 1, mat_id := 1 },
      by decide, rfl, 8, rfl, by decide⟩

/-- Reduction of a Boolean `if` whose condition is known true. -/
theorem ifb_pos {α : Type} {c : Bool} (h : c = true) (a b : α) :
    (if c = true then a else b) = a := by
  rw [h]
  rfl

/-- Reduction of a Boolean `if` whose condition is known false. -/
theorem ifb_neg {α : Type} {c : Bool} (h : c = false) (a b : α) :
    (if c = true then a else b) = b := by
  rw [h]
  rfl

/-- A non-nil list is not empty. -/
theorem isEmpty_false_of_ne {α : Type} (l : List α) (h : l ≠ []) :
    l.isEmpty = false := by
  cases l
  · exact absurd rfl h
  · rfl

/-- Deduplication does not change membership tests. -/
theorem contains_dedup (l : List Nat) (x : Nat) :
    l.dedup.contains x = l.contains x := by
  by_cases h : x ∈ l <;> simp [h, List.mem_dedup]

/-- Deduplication does not change emptiness. -/
theorem isEmpty_dedup (l : List Nat) : l.dedup.isEmpty = l.isEmpty := by
  cases l with
  | nil => rfl
  | cons a t =>
    have hne : (a :: t).dedup ≠ [] := by
      intro h
      exact absurd ((List.dedup_eq_nil _).mp h) (by simp)
    rw [isEmpty_false_of_ne _ hne]
    rfl

/-- On a non-empty identifier list the materiel lock read is the filter of
the table by requested identifiers, in table order. -/
theorem get_materiels_eq_filter (db : DB) (ids : List Nat)
    (h : ids.isEmpty = false) :
    get_materiels_by_ids_for_update db ids
      = db.materiels.filter (fun m => ids.contains m.mat_id) := by
  unfold get_materiels_by_ids_for_update
  rw [ifb_neg h]
  rfl

/-- The lock read ignores duplicate identifiers. -/
theorem get_materiels_dedup (db : DB) (ids : List Nat) :
    get_materiels_by_ids_for_update db ids.dedup
      = get_materiels_by_ids_for_update db ids := by
  unfold get_materiels_by_ids_for_update runMaterielSelect materiels_for_update_stmt
  rw [isEmpty_dedup]
  simp only [contains_dedup]

/-- Session holding one rented unit with one open line, for the
duplicate-restitution demonstration. -/
def sRestitDup : Session :=
  { committed :=
    { clients := []
      materiels := [{ mat_id := 1, mat_prix_jour := 10, mat_statut := "Loué" }]
      contrats := [{ cont_id := 1, cont_dateDebut := 0, cont_dateFin := 0, cli_id := 1 }]
      lignes := [{ lc_id := 1, lc_dateretourprevue := 0, lc_dateretourreelle := none, lc_retard_jours := none, lc_penalite := none, cont_id := 1, mat_id := 1 }]
      next_cont_id := 2
      next_lc_id := 2 }
    pending := none }

/-- C9: both transactions treat their identifier lists as sets — running
either on the deduplicated list gives exactly the same result, so
duplicates are collapsed before the existence checks, one line is created
and charged per distinct unit, and a restitution request repeating a
valid unreturned line identifier still succeeds. -/
theorem transactions_collapse_duplicates (s : Session) (cid : Nat)
    (ids : List Nat) (d1 d2 nb : ℤ)
    (cb : Option (ℚ → ℤ → Bool → Bool → PrixDetail))
    (lc_ids : List Nat) (d : ℤ) :
    transaction_valider_location s cid ids.dedup d1 d2 nb cb =
      transaction_valider_location s cid ids d1 d2 nb cb ∧
    transaction_restituer_lignes s lc_ids.dedup d =
      transaction_restituer_lignes s lc_ids d ∧
    (transaction_restituer_lignes sRestitDup [1, 1] 0).2.isOk = true := by
  refine ⟨?_, ?_, by decide⟩
  · unfold transaction_valider_location valider_body
    rw [isEmpty_dedup, get_materiels_dedup]
    simp only [contains_dedup, List.dedup_idem]
  · unfold transaction_restituer_lignes restituer_body runLigneSelect
      lignes_for_update_stmt
    rw [isEmpty_dedup]
    simp only [contains_dedup, List.dedup_idem]

/-- C1: when a reservation request names an existing client and existing
units, but at least one requested unit is not "Disponible", the whole
transaction fails with the stock conflict carrying exactly the requested
units whose status is not "Disponible", and the session state — every
unit status, every contract row, every line row — is exactly what it was
before the call. -/
theorem reserve_conflict_atomique (s : Session) (cid : Nat) (ids : List Nat)
    (d1 d2 nb : ℤ) (cb : Option (ℚ → ℤ → Bool → Bool → PrixDetail)) (c : Client)
    (hpend : s.pending = none)
    (hcli : s.committed.clients.find? (fun cc => cc.cli_id == cid) = some c)
    (hex : ∀ i ∈ ids, ∃ m ∈ s.committed.materiels, m.mat_id = i)
    (hconf : ∃ m ∈ s.committed.materiels,
      m.mat_id ∈ ids ∧ m.mat_statut ≠ "Disponible") :
    transaction_valider_location s cid ids d1 d2 nb cb =
      (s, .error (.stockInsuffisant
        (((get_materiels_by_ids_for_update s.committed ids).filter
          (fun m => m.mat_statut != "Disponible")).map (fun m => m.mat_id)))) := by
  obtain ⟨mc, hmc, hmcin, hmcst⟩ := hconf
  have hne : ids.isEmpty = false := by
    cases ids with
    | nil => simp at hmcin
    | cons a t => rfl
  have hget := get_materiels_eq_filter s.committed ids hne
  have hman : (ids.dedup.filter (fun i =>
      ! ((get_materiels_by_ids_for_update s.committed ids).map
        (fun m => m.mat_id)).contains i)).isEmpty = true := by
    have : (ids.dedup.filter (fun i =>
        ! ((get_materiels_by_ids_for_update s.committed ids).map
          (fun m => m.mat_id)).contains i)) = [] := by
      rw [List.filter_eq_nil_iff]
      intro i hi
      obtain ⟨m, hm, hmi⟩ := hex i (List.mem_dedup.mp hi)
      have hmem : m ∈ get_materiels_by_ids_for_update s.committed ids := by
        rw [hget]
        refine List.mem_filter.mpr ⟨hm, ?_⟩
        rw [hmi]
        simpa using List.mem_dedup.mp hi
      have : i ∈ (get_materiels_by_ids_for_update s.committed ids).map
          (fun m => m.mat_id) := by
        rw [← hmi]
        exact List.mem_map_of_mem _ hmem
      simpa using this
    rw [this]
    rfl
  have hmemf : mc ∈ (get_materiels_by_ids_for_update s.committed ids).filter
      (fun m => m.mat_statut != "Disponible") := by
    refine List.mem_filter.mpr ⟨?_, ?_⟩
    · rw [hget]
      exact List.mem_filter.mpr ⟨hmc, by simpa using hmcin⟩
    · simpa using hmcst
  have hnd := isEmpty_false_of_ne _ (List.ne_nil_of_mem hmemf)
  have hbody : valider_body s.committed cid ids d1 d2 nb cb =
      .error (.stockInsuffisant
        (((get_materiels_by_ids_for_update s.committed ids).filter
          (fun m => m.mat_statut != "Disponible")).map (fun m => m.mat_id))) := by
    simp only [valider_body, hcli]
    rw [ifb_pos hman, ifb_neg hnd]
  have hsession : ({ committed := s.committed, pending := none } : Session) = s := by
    cases s with
    | mk comm pend =>
      cases hpend
      rfl
  simp only [transaction_valider_location, hpend, hbody]
  rw [ifb_neg hne, hsession]

/-- Session for the conflict witness: client 1, unit 1 available, unit 2
already rented. -/
def sConflit : Session :=
  { committed :=
    { clients := [{ cli_id := 1, cli_vip := some false }]
      materiels := [{ mat_id := 1, mat_prix_jour := 10, mat_statut := "Disponible" },
        { mat_id := 2, mat_prix_jour := 10, mat_statut := "Loué" }]
      contrats := []
      lignes := []
      next_cont_id := 1
      next_lc_id := 1 }
    pending := none }

/-- C1 witness: requesting units 1 and 2 while unit 2 is rented fails
with the conflict carrying exactly [2] and leaves the session unchanged —
unit 1, which was available, is untouched. -/
theorem reserve_conflict_atomique_witness :
    transaction_valider_location sConflit 1 [1, 2] 0 3 4 (some calculer_prix) =
      (sConflit, .error (.stockInsuffisant [2])) := by
  rw [reserve_conflict_atomique sConflit 1 [1, 2] 0 3 4 (some calculer_prix)
    { cli_id := 1, cli_vip := some false } rfl (by decide) (by decide) (by decide)]
  decide

/-- On any identifier list the line lock read is the filter of the line
table by requested identifiers, in table order. -/
theorem runLigneSelect_eq_filter (db : DB) (lc_ids : List Nat) :
    runLigneSelect db (lignes_for_update_stmt lc_ids)
      = db.lignes.filter (fun lc => lc_ids.contains lc.lc_id) :=
  rfl

/-- The restitution update keeps the line identifier. -/
theorem restituer_maj_lc_id (d : ℤ) (lc : LigneContrat) :
    (restituer_maj d lc).lc_id = lc.lc_id :=
  rfl

/-- The restitution update keeps the materiel identifier. -/
theorem restituer_maj_mat_id (d : ℤ) (lc : LigneContrat) :
    (restituer_maj d lc).mat_id = lc.mat_id :=
  rfl

/-- The restitution update sets the actual return date. -/
theorem restituer_maj_reelle (d : ℤ) (lc : LigneContrat) :
    (restituer_maj d lc).lc_dateretourreelle = some d :=
  rfl

/-- Filtering commutes with a map that does not change the filtered
test. -/
theorem filter_map_eq {α : Type} (f : α → α) (p : α → Bool)
    (h : ∀ a, p (f a) = p a) (l : List α) :
    (l.map f).filter p = (l.filter p).map f := by
  induction l with
  | nil => rfl
  | cons a t ih =>
    simp only [List.map_cons, List.filter_cons, h a]
    by_cases hp : p a = true
    · simp [hp, ih]
    · simp [eq_false_of_ne_true hp, ih]

/-- Two duplicate-free lists with the same members have the same
length. -/
theorem length_eq_of_nodup_mem_iff {l1 l2 : List Nat} (h1 : l1.Nodup)
    (h2 : l2.Nodup) (h : ∀ x, x ∈ l1 ↔ x ∈ l2) : l1.length = l2.length := by
  rw [← List.toFinset_card_of_nodup h1, ← List.toFinset_card_of_nodup h2]
  congr 1
  ext x
  simp [h x]

/-- Inversion of a successful restitution: every requested line existed
and none was already returned, and the committed state after the call is
exactly the one with the requested lines closed and their materiels
released, the returned value being the closed lines. -/
theorem restituer_ok_inversion (s : Session) (lc_ids : List Nat) (d : ℤ)
    (s1 : Session) (res : List LigneContrat)
    (hok : transaction_restituer_lignes s lc_ids d = (s1, .ok res)) :
    lc_ids.isEmpty = false ∧
    (s.committed.lignes.filter (fun lc => lc_ids.contains lc.lc_id)).length
      = lc_ids.dedup.length ∧
    (s.committed.lignes.filter (fun lc => lc_ids.contains lc.lc_id)).filter
      (fun lc => lc.lc_dateretourreelle.isSome) = [] ∧
    s1 = { committed := { s.committed with
             lignes := s.committed.lignes.map (fun lc =>
               if lc_ids.contains lc.lc_id then restituer_maj d lc else lc)
             materiels := s.committed.materiels.map (fun m =>
               if (((s.committed.lignes.filter (fun lc => lc_ids.contains lc.lc_id)).map
                   (fun lc => lc.mat_id)).contains m.mat_id)
               then { m with mat_statut := "Disponible" } else m) }
           pending := none } ∧
    res = (s.committed.lignes.filter (fun lc => lc_ids.contains lc.lc_id)).map
      (restituer_maj d) := by
  cases hne : lc_ids.isEmpty with
  | true =>
    rw [transaction_restituer_lignes, ifb_pos hne] at hok
    exact absurd (congrArg Prod.snd hok) (by simp)
  | false =>
    rw [transaction_restituer_lignes, ifb_neg hne] at hok
    simp only [apply_ite Session.committed, ite_self] at hok
    rw [restituer_body, runLigneSelect_eq_filter] at hok
    by_cases hlen : (s.committed.lignes.filter
        (fun lc => lc_ids.contains lc.lc_id)).length = lc_ids.dedup.length
    · rw [if_pos hlen] at hok
      cases hdeja : (((s.committed.lignes.filter
          (fun lc => lc_ids.contains lc.lc_id)).filter
          (fun lc => lc.lc_dateretourreelle.isSome)).map (fun lc => lc.lc_id)).isEmpty with
      | true =>
        rw [ifb_pos hdeja] at hok
        have hfe : (s.committed.lignes.filter (fun lc => lc_ids.contains lc.lc_id)).filter
            (fun lc => lc.lc_dateretourreelle.isSome) = [] := by
          have := List.isEmpty_iff.mp hdeja
          simpa using this
        have h1 := congrArg Prod.fst hok
        have h2 := congrArg Prod.snd hok
        simp only [Except.ok.injEq] at h2
        exact ⟨rfl, hlen, hfe, h1.symm, h2.symm⟩
      | false =>
        rw [ifb_neg hdeja] at hok
        exact absurd (congrArg Prod.snd hok) (by simp)
    · rw [if_neg hlen] at hok
      exact absurd (congrArg Prod.snd hok) (by simp)

/-- C5: when a restitution batch names only existing lines and at least
one of them already has an actual return date, the transaction fails
with the already-returned conflict carrying exactly those line
identifiers and the session is untouched; and after any successful
restitution, repeating the call over the same line set always fails with
the already-returned conflict over the whole batch and leaves the
post-restitution state untouched. -/
theorem restitution_deja_restituee_atomique (s : Session) (lc_ids : List Nat)
    (d : ℤ)
    (hpend : s.pending = none)
    (hnodup : (s.committed.lignes.map (fun lc => lc.lc_id)).Nodup) :
    ((∀ i ∈ lc_ids, ∃ lc ∈ s.committed.lignes, lc.lc_id = i) →
     (∃ lc ∈ s.committed.lignes, lc.lc_id ∈ lc_ids ∧
        lc.lc_dateretourreelle ≠ none) →
      transaction_restituer_lignes s lc_ids d =
        (s, .error (.dejaRestituees
          (((s.committed.lignes.filter (fun lc => lc_ids.contains lc.lc_id)).filter
            (fun lc => lc.lc_dateretourreelle.isSome)).map (fun lc => lc.lc_id))))) ∧
    (∀ (s1 : Session) (res : List LigneContrat) (d2 : ℤ),
      transaction_restituer_lignes s lc_ids d = (s1, .ok res) →
      transaction_restituer_lignes s1 lc_ids d2 =
        (s1, .error (.dejaRestituees
          ((s.committed.lignes.filter (fun lc => lc_ids.contains lc.lc_id)).map
            (fun lc => lc.lc_id))))) := by
  constructor
  · intro hex hdeja
    obtain ⟨lcd, hlcd, hlcdin, hlcdret⟩ := hdeja
    have hne : lc_ids.isEmpty = false := by
      cases lc_ids with
      | nil => simp at hlcdin
      | cons a t => rfl
    have hlen : (s.committed.lignes.filter
        (fun lc => lc_ids.contains lc.lc_id)).length = lc_ids.dedup.length := by
      have hmapeq : ((s.committed.lignes.filter
          (fun lc => lc_ids.contains lc.lc_id)).map (fun lc => lc.lc_id)).length
          = lc_ids.dedup.length := by
        refine length_eq_of_nodup_mem_iff ?_ (List.nodup_dedup lc_ids) ?_
        · exact List.Nodup.sublist ((List.filter_sublist _).map _) hnodup
        · intro x
          constructor
          · intro hx
            obtain ⟨lc, hlc, hlceq⟩ := List.mem_map.mp hx
            have := List.mem_filter.mp hlc
            rw [List.mem_dedup, ← hlceq]
            simpa using this.2
          · intro hx
            obtain ⟨lc, hlc, hlceq⟩ := hex x (List.mem_dedup.mp hx)
            refine List.mem_map.mpr ⟨lc, List.mem_filter.mpr ⟨hlc, ?_⟩, hlceq⟩
            rw [hlceq]
            simpa using List.mem_dedup.mp hx
      simpa using hmapeq
    have hdne : ((((s.committed.lignes.filter
        (fun lc => lc_ids.contains lc.lc_id)).filter
        (fun lc => lc.lc_dateretourreelle.isSome)).map
        (fun lc => lc.lc_id))).isEmpty = false := by
      refine isEmpty_false_of_ne _ (List.ne_nil_of_mem (List.mem_map.mpr
        ⟨lcd, List.mem_filter.mpr ⟨List.mem_filter.mpr ⟨hlcd, ?_⟩, ?_⟩, rfl⟩))
      · simpa using hlcdin
      · simpa using Option.ne_none_iff_isSome.mp hlcdret
    have hps : s.pending.isSome = false := by
      rw [hpend]
      rfl
    have hsession : ({ committed := s.committed, pending := none } : Session) = s := by
      cases s with
      | mk comm pend =>
        cases hpend
        rfl
    simp only [transaction_restituer_lignes, restituer_body, runLigneSelect_eq_filter,
      ifb_neg hne, ifb_neg hps]
    rw [if_pos hlen, ifb_neg hdne, hsession]
  · intro s1 res d2 hok
    obtain ⟨hne, hlen, hfe, hs1, hres⟩ := restituer_ok_inversion s lc_ids d s1 res hok
    have hmaj : ∀ lc : LigneContrat,
        lc_ids.contains (if lc_ids.contains lc.lc_id = true
          then restituer_maj d lc else lc).lc_id = lc_ids.contains lc.lc_id := by
      intro lc
      by_cases h : lc_ids.contains lc.lc_id = true
      · rw [if_pos h, restituer_maj_lc_id]
      · rw [if_neg h]
    have hF2 : s1.committed.lignes.filter (fun lc => lc_ids.contains lc.lc_id)
        = ((s.committed.lignes.filter (fun lc => lc_ids.contains lc.lc_id)).map
          (fun lc => if lc_ids.contains lc.lc_id = true then restituer_maj d lc else lc)) := by
      rw [hs1]
      exact filter_map_eq _ _ hmaj _
    have hF2maj : s1.committed.lignes.filter (fun lc => lc_ids.contains lc.lc_id)
        = (s.committed.lignes.filter (fun lc => lc_ids.contains lc.lc_id)).map
          (restituer_maj d) := by
      rw [hF2]
      refine List.map_congr_left ?_
      intro lc hlc
      exact if_pos (List.mem_filter.mp hlc).2
    have hlen2 : (s1.committed.lignes.filter
        (fun lc => lc_ids.contains lc.lc_id)).length = lc_ids.dedup.length := by
      rw [hF2maj, List.length_map]
      exact hlen
    have hFne : s.committed.lignes.filter (fun lc => lc_ids.contains lc.lc_id) ≠ [] := by
      intro hnil
      rw [hnil] at hlen
      have : lc_ids.dedup = [] := by
        cases hd : lc_ids.dedup with
        | nil => rfl
        | cons a t =>
          rw [hd] at hlen
          simp at hlen
      exact absurd ((List.dedup_eq_nil _).mp this)
        (by
          intro h2
          rw [h2] at hne
          simp at hne)
    have hdne2 : (((s1.committed.lignes.filter
        (fun lc => lc_ids.contains lc.lc_id)).filter
        (fun lc => lc.lc_dateretourreelle.isSome)).map
        (fun lc => lc.lc_id)).isEmpty = false := by
      obtain ⟨lc0, hlc0⟩ := List.exists_mem_of_ne_nil _ hFne
      refine isEmpty_false_of_ne _ (List.ne_nil_of_mem (List.mem_map.mpr
        ⟨restituer_maj d lc0, List.mem_filter.mpr ⟨?_, ?_⟩, rfl⟩))
      · rw [hF2maj]
        exact List.mem_map.mpr ⟨lc0, hlc0, rfl⟩
      · rw [restituer_maj_reelle]
        rfl
    have hpay : (((s1.committed.lignes.filter
        (fun lc => lc_ids.contains lc.lc_id)).filter
        (fun lc => lc.lc_dateretourreelle.isSome)).map (fun lc => lc.lc_id))
        = (s.committed.lignes.filter (fun lc => lc_ids.contains lc.lc_id)).map
          (fun lc => lc.lc_id) := by
      rw [hF2maj, List.filter_eq_self.mpr, List.map_map]
      · rfl
      · intro a ha
        obtain ⟨lc, _, hlceq⟩ := List.mem_map.mp ha
        rw [← hlceq, restituer_maj_reelle]
        rfl
    have hps1 : s1.pending.isSome = false := by
      rw [hs1]
      rfl
    have hsession1 : ({ committed := s1.committed, pending := none } : Session) = s1 := by
      rw [hs1]
    simp only [transaction_restituer_lignes, restituer_body, runLigneSelect_eq_filter,
      ifb_neg hne, ifb_neg hps1]
    rw [if_pos hlen2, ifb_neg hdne2, hsession1, hpay]

/-- Session for the already-returned witness: line 1 already returned,
line 2 still open. -/
def sDeja : Session :=
  { committed :=
    { clients := []
      materiels := [{ mat_id := 1, mat_prix_jour := 10, mat_statut := "Disponible" },
        { mat_id := 2, mat_prix_jour := 10, mat_statut := "Loué" }]
      contrats := [{ cont_id := 1, cont_dateDebut := 0, cont_dateFin := 5, cli_id := 1 }]
      lignes := [{ lc_id := 1, lc_dateretourprevue := 5, lc_dateretourreelle := some 5, lc_retard_jours := none, lc_penalite := none, cont_id := 1, mat_id := 1 },
        { lc_id := 2, lc_dateretourprevue := 5, lc_dateretourreelle := none, lc_retard_jours := none, lc_penalite := none, cont_id := 1, mat_id := 2 }]
      next_cont_id := 2
      next_lc_id := 3 }
    pending := none }

/-- C5 witness: restituting lines 1 and 2 while line 1 is already
returned fails carrying exactly [1] and changes nothing; and after the
successful restitution of line 1 in `sRestitDup`, restituting [1] again
fails carrying [1] and changes nothing. -/
theorem restitution_deja_restituee_atomique_witness :
    transaction_restituer_lignes sDeja [1, 2] 9 =
      (sDeja, .error (.dejaRestituees [1])) ∧
    transaction_restituer_lignes ((transaction_restituer_lignes sRestitDup [1] 3).1) [1] 7 =
      ((transaction_restituer_lignes sRestitDup [1] 3).1,
        .error (.dejaRestituees [1])) := by
  constructor
  · have h := (restitution_deja_restituee_atomique sDeja [1, 2] 9 rfl (by decide)).1
      (by decide) (by decide)
    rw [h]
    decide
  · have hok : transaction_restituer_lignes sRestitDup [1] 3 =
        ((transaction_restituer_lignes sRestitDup [1] 3).1,
          .ok ((sRestitDup.committed.lignes.filter (fun lc => [1].contains lc.lc_id)).map
            (restituer_maj 3))) := rfl
    have h := (restitution_deja_restituee_atomique sRestitDup [1] 3 rfl (by decide)).2
      ((transaction_restituer_lignes sRestitDup [1] 3).1)
      ((sRestitDup.committed.lignes.filter (fun lc => [1].contains lc.lc_id)).map
        (restituer_maj 3)) 7 hok
    rw [h]
    exact congrArg (fun l => ((transaction_restituer_lignes sRestitDup [1] 3).1,
      (Except.error (CoreError.dejaRestituees l) : Except CoreError (List LigneContrat))))
      (by decide)

/-- A left fold accumulating additions is the sum of the mapped list. -/
theorem foldl_add_map {α : Type} (f : α → ℚ) (l : List α) :
    ∀ a : ℚ, l.foldl (fun acc m => acc + f m) a = a + (l.map f).sum := by
  induction l with
  | nil =>
    intro a
    simp
  | cons x t ih =>
    intro a
    simp only [List.foldl_cons, List.map_cons, List.sum_cons]
    rw [ih (a + f x), add_assoc]

/-- Every line created for a reservation carries the contract end date as
planned return, no actual return, and the new contract identifier. -/
theorem lignes_pour_mem (next cont : Nat) (dfin : ℤ) (l : List Materiel) :
    ∀ lc ∈ lignes_pour next cont dfin l,
      lc.lc_dateretourprevue = dfin ∧ lc.lc_dateretourreelle = none ∧
      lc.cont_id = cont := by
  induction l generalizing next with
  | nil =>
    intro lc h
    cases h
  | cons m t ih =>
    intro lc h
    rcases List.mem_cons.mp h with rfl | h2
    · exact ⟨rfl, rfl, rfl⟩
    · exact ih (next + 1) lc h2

/-- The created lines reference exactly the locked materiels, in order:
one line per locked unit. -/
theorem lignes_pour_map_mat_id (next cont : Nat) (dfin : ℤ) (l : List Materiel) :
    (lignes_pour next cont dfin l).map (fun lc => lc.mat_id)
      = l.map (fun m => m.mat_id) := by
  induction l generalizing next with
  | nil => rfl
  | cons m t ih =>
    simp only [lignes_pour, List.map_cons]
    rw [ih (next + 1)]

/-- C3: a reservation over an existing client, existing and available
units, and dates d1 ≤ d2 succeeds; the inclusive duration (d2 − d1) + 1
is at least 1; exactly one contract row for (client, d1, d2) is appended;
one line per locked unit is appended, each with planned return d2 and no
actual return; every requested unit's status becomes "Loué"; the call
returns the triple of new contract, rented units and the price breakdown
computed on baseTotal = Σ dailyRate × duration. -/
theorem valider_location_ok (s : Session) (cid : Nat) (ids : List Nat)
    (d1 d2 : ℤ) (c : Client)
    (hpend : s.pending = none)
    (hdates : d1 ≤ d2)
    (hne : ids ≠ [])
    (hcli : s.committed.clients.find? (fun cc => cc.cli_id == cid) = some c)
    (hex : ∀ i ∈ ids, ∃ m ∈ s.committed.materiels, m.mat_id = i)
    (hdisp : ∀ m ∈ s.committed.materiels, m.mat_id ∈ ids →
      m.mat_statut = "Disponible") :
    1 ≤ (d2 - d1) + 1 ∧
    valider_location s cid ids d1 d2 =
      ({ committed := { s.committed with
           contrats := s.committed.contrats ++
             [{ cont_id := s.committed.next_cont_id, cont_dateDebut := d1,
                cont_dateFin := d2, cli_id := cid }]
           lignes := s.committed.lignes ++
             lignes_pour s.committed.next_lc_id s.committed.next_cont_id d2
               (get_materiels_by_ids_for_update s.committed ids)
           materiels := s.committed.materiels.map (fun m =>
             if ids.contains m.mat_id then { m with mat_statut := "Loué" } else m)
           next_cont_id := s.committed.next_cont_id + 1
           next_lc_id := s.committed.next_lc_id +
             (lignes_pour s.committed.next_lc_id s.committed.next_cont_id d2
               (get_materiels_by_ids_for_update s.committed ids)).length }
         pending := none },
       .ok { contrat := { cont_id := s.committed.next_cont_id
                          cont_dateDebut := d1
                          cont_dateFin := d2
                          cli_id := cid }
             materiels := (get_materiels_by_ids_for_update s.committed ids).map
               (fun m => { m with mat_statut := "Loué" })
             prix := calculer_prix
               ((get_materiels_by_ids_for_update s.committed ids).foldl
                 (fun acc m => acc + m.mat_prix_jour * (((d2 - d1) + 1 : ℤ) : ℚ)) 0)
               ((d2 - d1) + 1) (c.cli_vip.getD false)
               (client_est_risque s.committed cid) }) ∧
    ((get_materiels_by_ids_for_update s.committed ids).foldl
        (fun acc m => acc + m.mat_prix_jour * (((d2 - d1) + 1 : ℤ) : ℚ)) 0
      = ((get_materiels_by_ids_for_update s.committed ids).map
          (fun m => m.mat_prix_jour * (((d2 - d1) + 1 : ℤ) : ℚ))).sum) ∧
    (∀ lc ∈ lignes_pour s.committed.next_lc_id s.committed.next_cont_id d2
        (get_materiels_by_ids_for_update s.committed ids),
      lc.lc_dateretourprevue = d2 ∧ lc.lc_dateretourreelle = none) ∧
    ((lignes_pour s.committed.next_lc_id s.committed.next_cont_id d2
        (get_materiels_by_ids_for_update s.committed ids)).map (fun lc => lc.mat_id)
      = (get_materiels_by_ids_for_update s.committed ids).map (fun m => m.mat_id)) := by
  have hneE : ids.isEmpty = false := isEmpty_false_of_ne _ hne
  have hget := get_materiels_eq_filter s.committed ids hneE
  have hman : (ids.dedup.filter (fun i =>
      ! ((get_materiels_by_ids_for_update s.committed ids).map
        (fun m => m.mat_id)).contains i)).isEmpty = true := by
    have : (ids.dedup.filter (fun i =>
        ! ((get_materiels_by_ids_for_update s.committed ids).map
          (fun m => m.mat_id)).contains i)) = [] := by
      rw [List.filter_eq_nil_iff]
      intro i hi
      obtain ⟨m, hm, hmi⟩ := hex i (List.mem_dedup.mp hi)
      have hmem : m ∈ get_materiels_by_ids_for_update s.committed ids := by
        rw [hget]
        refine List.mem_filter.mpr ⟨hm, ?_⟩
        rw [hmi]
        simpa using List.mem_dedup.mp hi
      have : i ∈ (get_materiels_by_ids_for_update s.committed ids).map
          (fun m => m.mat_id) := by
        rw [← hmi]
        exact List.mem_map_of_mem _ hmem
      simpa using this
    rw [this]
    rfl
  have hndt : ((get_materiels_by_ids_for_update s.committed ids).filter
      (fun m => m.mat_statut != "Disponible")).isEmpty = true := by
    have : ((get_materiels_by_ids_for_update s.committed ids).filter
        (fun m => m.mat_statut != "Disponible")) = [] := by
      rw [List.filter_eq_nil_iff]
      intro m hm
      rw [hget] at hm
      have h2 := List.mem_filter.mp hm
      have h3 : m.mat_statut = "Disponible" :=
        hdisp m h2.1 (by simpa using h2.2)
      simp [h3]
    rw [this]
    rfl
  have hlt : ¬ (d2 < d1) := not_lt.mpr hdates
  have hnb : ¬ ((d2 - d1) + 1 ≤ 0) := by omega
  refine ⟨by omega, ?_, ?_,
    fun lc h => ⟨(lignes_pour_mem _ _ _ _ lc h).1, (lignes_pour_mem _ _ _ _ lc h).2.1⟩,
    lignes_pour_map_mat_id _ _ _ _⟩
  · simp only [valider_location, if_neg hlt, if_neg hnb, transaction_valider_location,
      ifb_neg hneE, hpend, valider_body, hcli, ifb_pos hman, ifb_pos hndt]
  · rw [foldl_add_map]
    rw [zero_add]

/-- Session for the reservation witness: VIP client 1, unit 1 at 50 per
day, empty history. -/
def sReussite : Session :=
  { committed :=
    { clients := [{ cli_id := 1, cli_vip := some true }]
      materiels := [{ mat_id := 1, mat_prix_jour := 50, mat_statut := "Disponible" }]
      contrats := []
      lignes := []
      next_cont_id := 1
      next_lc_id := 1 }
    pending := none }

/-- C3 witness: reserving unit 1 for client 1 over days 0..9 succeeds,
rents the unit, creates contract 1 and its single line with planned
return 9 and no actual return. -/
theorem valider_location_ok_witness :
    (1 : ℤ) ≤ (9 - 0) + 1 ∧
    (valider_location sReussite 1 [1] 0 9).2.isOk = true ∧
    (valider_location sReussite 1 [1] 0 9).1.committed.materiels.map
      Materiel.mat_statut = ["Loué"] ∧
    (valider_location sReussite 1 [1] 0 9).1.committed.contrats =
      [{ cont_id := 1, cont_dateDebut := 0, cont_dateFin := 9, cli_id := 1 }] ∧
    (valider_location sReussite 1 [1] 0 9).1.committed.lignes.map
      (fun lc => (lc.lc_id, lc.lc_dateretourprevue, lc.lc_dateretourreelle,
        lc.cont_id, lc.mat_id)) = [(1, 9, none, 1, 1)] := by
  have h := valider_location_ok sReussite 1 [1] 0 9 { cli_id := 1, cli_vip := some true }
    rfl (by decide) (by decide) (by decide) (by decide) (by decide)
  refine ⟨h.1, ?_, ?_, ?_, ?_⟩
  · rw [h.2.1]
    rfl
  · rw [h.2.1]
    decide
  · rw [h.2.1]
    decide
  · rw [h.2.1]
    decide

/-- Rounding an exact integer amount to 2 decimals returns it
unchanged. -/
theorem round2_intCast (n : ℤ) : round2 ((n : ℚ)) = n := by
  unfold round2
  rw [show ((n : ℚ)) * 100 = ((100 * n : ℤ) : ℚ) from by push_cast; ring]
  rw [roundHalfEven_of_lt ((100 * n : ℤ) : ℚ) (by rw [Int.floor_intCast]; norm_num)]
  rw [Int.floor_intCast]
  push_cast
  rw [mul_comm]
  rw [mul_div_assoc]
  norm_num

/-- The restitution update keeps the planned return date. -/
theorem restituer_maj_prevue (d : ℤ) (lc : LigneContrat) :
    (restituer_maj d lc).lc_dateretourprevue = lc.lc_dateretourprevue :=
  rfl

/-- Modelled from the spec: the penalty the spec prescribes, lateDays
times the single named, overridable configuration constant
penaltyRatePerDay — whatever value that constant holds. -/
def penalite_selon_spec (penaltyRatePerDay : ℚ) (lateDays : ℤ) : ℚ :=
  (lateDays : ℚ) * penaltyRatePerDay

/-- C4: every line of a successful restitution does get
lateDays = max 0 (actualReturnDate − plannedReturnDate) and an exact
penalty, and the example (planned 2024-01-10, actual 2024-01-13) does
give 3 days and 15.00 — but the stored penalty is lateDays × the
hardcoded literal 5.00 (repository.py line 556), not lateDays × the
named constant PENALITE_PAR_JOUR, which no code path reads: the two
coincide only while the constant keeps its default 5.00, and overriding
it to 7.00 would make the spec's penalty for 3 late days 21.00 while the
code still stores 15.00.  The claim's single-named-overridable-constant
clause is false of the program. -/
theorem penalite_litterale_non_configurable (s : Session) (lc_ids : List Nat)
    (d : ℤ) (s1 : Session) (res : List LigneContrat)
    (hok : transaction_restituer_lignes s lc_ids d = (s1, .ok res)) :
    (∀ lc ∈ res,
      lc.lc_retard_jours = some (max 0 (d - lc.lc_dateretourprevue)) ∧
      lc.lc_penalite = some (((max 0 (d - lc.lc_dateretourprevue) : ℤ) : ℚ) * 5) ∧
      lc.lc_dateretourreelle = some d) ∧
    (∀ lc ∈ res,
      lc.lc_penalite = some (penalite_selon_spec PENALITE_PAR_JOUR
        (max 0 (d - lc.lc_dateretourprevue)))) ∧
    calculer_retard_et_penalite 738895 738898 = (3, 15) ∧
    penalite_selon_spec 7 3 = 21 ∧
    ((((3 : ℤ) : ℚ) * 5 = 15) ∧ ((21 : ℚ) ≠ 15)) := by
  obtain ⟨-, -, -, -, hres⟩ := restituer_ok_inversion s lc_ids d s1 res hok
  have hcode : ∀ lc ∈ res,
      lc.lc_retard_jours = some (max 0 (d - lc.lc_dateretourprevue)) ∧
      lc.lc_penalite = some (((max 0 (d - lc.lc_dateretourprevue) : ℤ) : ℚ) * 5) ∧
      lc.lc_dateretourreelle = some d := by
    intro lc hlc
    rw [hres] at hlc
    obtain ⟨lc0, -, hlceq⟩ := List.mem_map.mp hlc
    have hmax : (if d - lc0.lc_dateretourprevue < 0 then 0
        else d - lc0.lc_dateretourprevue) = max 0 (d - lc0.lc_dateretourprevue) := by
      by_cases h : d - lc0.lc_dateretourprevue < 0
      · rw [if_pos h, max_eq_left (le_of_lt h)]
      · rw [if_neg h, max_eq_right (le_of_not_lt h)]
    refine ⟨?_, ?_, ?_⟩
    · rw [← hlceq, restituer_maj_prevue]
      show some _ = _
      rw [hmax]
    · rw [← hlceq, restituer_maj_prevue]
      show some ((if d - lc0.lc_dateretourprevue < 0 then 0
        else d - lc0.lc_dateretourprevue : ℤ) * 5 : ℚ) = _
      rw [hmax]
    · rw [← hlceq, restituer_maj_reelle]
  refine ⟨hcode, ?_, ?_, ?_, by constructor <;> norm_num⟩
  · intro lc hlc
    rw [(hcode lc hlc).2.1]
    rfl
  · unfold calculer_retard_et_penalite calculer_retard_jours calculer_penalite
    rw [if_neg (show ¬((738898 : ℤ) ≤ 738895) from by decide)]
    rw [show PENALITE_PAR_JOUR * (((738898 - 738895 : ℤ)) : ℚ) = ((15 : ℤ) : ℚ)
      from by push_cast [PENALITE_PAR_JOUR]; norm_num]
    rw [round2_intCast]
    refine Prod.ext (by decide) (by norm_num)
  · unfold penalite_selon_spec
    norm_num

/-- Session for the penalty witness: line 1 planned for day 738895
(2024-01-10), still open, on rented unit 1. -/
def sRetard : Session :=
  { committed :=
    { clients := []
      materiels := [{ mat_id := 1, mat_prix_jour := 10, mat_statut := "Loué" }]
      contrats := [{ cont_id := 1, cont_dateDebut := 738886, cont_dateFin := 738895, cli_id := 1 }]
      lignes := [{ lc_id := 1, lc_dateretourprevue := 738895, lc_dateretourreelle := none, lc_retard_jours := none, lc_penalite := none, cont_id := 1, mat_id := 1 }]
      next_cont_id := 2
      next_lc_id := 2 }
    pending := none }

/-- C4 witness: on the concrete session, restituting line 1 on
2024-01-13 (ordinal 738898, planned 2024-01-10, ordinal 738895) stores
lateDays 3 and penalty 15.00 from the literal; the spec's formula with
the constant overridden to 7.00 gives 21.00 ≠ 15.00. -/
theorem penalite_litterale_non_configurable_witness :
    calculer_retard_et_penalite 738895 738898 = (3, 15) ∧
    (restituer_maj 738898 { lc_id := 1, lc_dateretourprevue := 738895, lc_dateretourreelle := none, lc_retard_jours := none, lc_penalite := none, cont_id := 1, mat_id := 1 }).lc_retard_jours = some 3 ∧
    (restituer_maj 738898 { lc_id := 1, lc_dateretourprevue := 738895, lc_dateretourreelle := none, lc_retard_jours := none, lc_penalite := none, cont_id := 1, mat_id := 1 }).lc_penalite = some 15 ∧
    penalite_selon_spec 7 3 = 21 ∧ ((21 : ℚ) ≠ 15) := by
  have hok : transaction_restituer_lignes sRetard [1] 738898 =
      ((transaction_restituer_lignes sRetard [1] 738898).1,
        .ok ((sRetard.committed.lignes.filter (fun lc => [1].contains lc.lc_id)).map
          (restituer_maj 738898))) := rfl
  have h := penalite_litterale_non_configurable sRetard [1] 738898 _ _ hok
  have hmem : restituer_maj 738898 { lc_id := 1, lc_dateretourprevue := 738895, lc_dateretourreelle := none, lc_retard_jours := none, lc_penalite := none, cont_id := 1, mat_id := 1 }
      ∈ (sRetard.committed.lignes.filter (fun lc => [1].contains lc.lc_id)).map
        (restituer_maj 738898) :=
    List.mem_map.mpr ⟨_, by decide, rfl⟩
  obtain ⟨hline, -, hutil, hspec, hnum⟩ := h
  obtain ⟨h1, h2, -⟩ := hline _ hmem
  refine ⟨hutil, ?_, ?_, hspec, hnum.2⟩
  · rw [h1, restituer_maj_prevue]
    rw [show max 0 (738898 - 738895 : ℤ) = 3 from by decide]
  · rw [h2, restituer_maj_prevue]
    rw [show max 0 (738898 - 738895 : ℤ) = 3 from by decide]
    rw [show (((3 : ℤ) : ℚ) * 5) = 15 from by push_cast; norm_num]

/-- Data-model invariant of the spec: a unit's status is "Loué" exactly
when some contract line referencing it is still open (no actual return
date). -/
def StatutLoueCorrespond (db : DB) : Prop :=
  ∀ m ∈ db.materiels, (m.mat_statut = "Loué" ↔
    ∃ lc ∈ db.lignes, lc.mat_id = m.mat_id ∧ lc.lc_dateretourreelle = none)

/-- Auxiliary invariant the transactions maintain: a unit is referenced
by at most one open line. -/
def AuPlusUneLigneOuverte (db : DB) : Prop :=
  ∀ lc1 ∈ db.lignes, ∀ lc2 ∈ db.lignes,
    lc1.lc_dateretourreelle = none → lc2.lc_dateretourreelle = none →
    lc1.mat_id = lc2.mat_id → lc1 = lc2

instance (db : DB) : Decidable (StatutLoueCorrespond db) := by
  unfold StatutLoueCorrespond
  infer_instance

instance (db : DB) : Decidable (AuPlusUneLigneOuverte db) := by
  unfold AuPlusUneLigneOuverte
  infer_instance

/-- Changing a unit's status keeps its identifier. -/
theorem statut_update_mat_id (m : Materiel) (st : String) :
    ({ m with mat_statut := st } : Materiel).mat_id = m.mat_id :=
  rfl

/-- Changing a unit's status sets its status. -/
theorem statut_update_statut (m : Materiel) (st : String) :
    ({ m with mat_statut := st } : Materiel).mat_statut = st :=
  rfl

/-- Distinct locked units give distinct created lines: two created lines
over the same unit coincide. -/
theorem lignes_pour_inj (next cont : Nat) (dfin : ℤ) (l : List Materiel)
    (hnd : (l.map (fun m => m.mat_id)).Nodup) :
    ∀ lc1 ∈ lignes_pour next cont dfin l, ∀ lc2 ∈ lignes_pour next cont dfin l,
      lc1.mat_id = lc2.mat_id → lc1 = lc2 := by
  induction l generalizing next with
  | nil =>
    intro lc1 h1
    cases h1
  | cons m t ih =>
    have hnd2 := List.nodup_cons.mp hnd
    intro lc1 h1 lc2 h2 hmat
    rcases List.mem_cons.mp h1 with rfl | h1t <;>
      rcases List.mem_cons.mp h2 with rfl | h2t
    · rfl
    · exfalso
      have : lc2.mat_id ∈ t.map (fun m => m.mat_id) := by
        rw [← lignes_pour_map_mat_id (next + 1) cont dfin t]
        exact List.mem_map_of_mem _ h2t
      rw [← hmat] at this
      exact hnd2.1 this
    · exfalso
      have : lc1.mat_id ∈ t.map (fun m => m.mat_id) := by
        rw [← lignes_pour_map_mat_id (next + 1) cont dfin t]
        exact List.mem_map_of_mem _ h1t
      rw [hmat] at this
      exact hnd2.1 this
    · exact ih (next + 1) hnd2.2 lc1 h1t lc2 h2t hmat

/-- Inversion of a successful reservation: the request was non-empty, all
locked units were available, and the committed state after the call has
the new contract and its lines appended and the requested units set to
"Loué". -/
theorem valider_ok_inversion (s : Session) (cid : Nat) (ids : List Nat)
    (d1 d2 nb : ℤ) (cb : Option (ℚ → ℤ → Bool → Bool → PrixDetail))
    (s1 : Session) (res : ValiderResult)
    (hok : transaction_valider_location s cid ids d1 d2 nb cb = (s1, .ok res)) :
    ids.isEmpty = false ∧
    ((get_materiels_by_ids_for_update s.committed ids).filter
      (fun m => m.mat_statut != "Disponible")) = [] ∧
    s1.committed = { s.committed with
      contrats := s.committed.contrats ++
        [{ cont_id := s.committed.next_cont_id, cont_dateDebut := d1,
           cont_dateFin := d2, cli_id := cid }]
      lignes := s.committed.lignes ++
        lignes_pour s.committed.next_lc_id s.committed.next_cont_id d2
          (get_materiels_by_ids_for_update s.committed ids)
      materiels := s.committed.materiels.map (fun m =>
        if ids.contains m.mat_id then { m with mat_statut := "Loué" } else m)
      next_cont_id := s.committed.next_cont_id + 1
      next_lc_id := s.committed.next_lc_id +
        (lignes_pour s.committed.next_lc_id s.committed.next_cont_id d2
          (get_materiels_by_ids_for_update s.committed ids)).length } := by
  cases hne : ids.isEmpty with
  | true =>
    rw [transaction_valider_location, ifb_pos hne] at hok
    exact absurd (congrArg Prod.snd hok) (by simp)
  | false =>
    rw [transaction_valider_location, ifb_neg hne] at hok
    cases hp : s.pending with
    | some p =>
      rw [hp] at hok
      exact absurd (congrArg Prod.snd hok) (by simp)
    | none =>
      simp only [hp] at hok
      rw [valider_body] at hok
      cases hcl : s.committed.clients.find? (fun cc => cc.cli_id == cid) with
      | none =>
        simp only [hcl] at hok
        exact absurd (congrArg Prod.snd hok) (by simp)
      | some c =>
        simp only [hcl] at hok
        cases hm : (ids.dedup.filter (fun i =>
            ! ((get_materiels_by_ids_for_update s.committed ids).map
              (fun m => m.mat_id)).contains i)).isEmpty with
        | false =>
          rw [ifb_neg hm] at hok
          exact absurd (congrArg Prod.snd hok) (by simp)
        | true =>
          rw [ifb_pos hm] at hok
          cases hnd : ((get_materiels_by_ids_for_update s.committed ids).filter
              (fun m => m.mat_statut != "Disponible")).isEmpty with
          | false =>
            rw [ifb_neg hnd] at hok
            exact absurd (congrArg Prod.snd hok) (by simp)
          | true =>
            rw [ifb_pos hnd] at hok
            cases cb with
            | none =>
              simp only [] at hok
              exact absurd (congrArg Prod.snd hok) (by simp)
            | some calc2 =>
              simp only [] at hok
              have h1 : _ = s1 := congrArg Prod.fst hok
              refine ⟨rfl, by simpa using List.isEmpty_iff.mp hnd, ?_⟩
              rw [← h1]

/-- A committed reservation preserves the status/open-line
correspondence and the at-most-one-open-line property. -/
theorem valider_preserve_inv (s s1 : Session) (cid : Nat) (ids : List Nat)
    (d1 d2 nb : ℤ) (cb : Option (ℚ → ℤ → Bool → Bool → PrixDetail))
    (res : ValiderResult)
    (hmWF : (s.committed.materiels.map (fun m => m.mat_id)).Nodup)
    (hi1 : StatutLoueCorrespond s.committed)
    (hi2 : AuPlusUneLigneOuverte s.committed)
    (hok : transaction_valider_location s cid ids d1 d2 nb cb = (s1, .ok res)) :
    StatutLoueCorrespond s1.committed ∧ AuPlusUneLigneOuverte s1.committed := by
  obtain ⟨hne, hdisp, hdb⟩ := valider_ok_inversion s cid ids d1 d2 nb cb s1 res hok
  have hget := get_materiels_eq_filter s.committed ids hne
  have hLdisp : ∀ m ∈ get_materiels_by_ids_for_update s.committed ids,
      m.mat_statut = "Disponible" := by
    intro m hm
    have := List.filter_eq_nil_iff.mp hdisp m hm
    simpa using this
  have hLmem : ∀ m : Materiel, m ∈ get_materiels_by_ids_for_update s.committed ids ↔
      (m ∈ s.committed.materiels ∧ ids.contains m.mat_id = true) := by
    intro m
    rw [hget]
    exact List.mem_filter
  have hNmatids := lignes_pour_map_mat_id s.committed.next_lc_id
    s.committed.next_cont_id d2 (get_materiels_by_ids_for_update s.committed ids)
  have hNopen : ∀ lc ∈ lignes_pour s.committed.next_lc_id s.committed.next_cont_id d2
      (get_materiels_by_ids_for_update s.committed ids),
      lc.lc_dateretourreelle = none :=
    fun lc h => (lignes_pour_mem _ _ _ _ lc h).2.1
  have hLNodup : ((get_materiels_by_ids_for_update s.committed ids).map
      (fun m => m.mat_id)).Nodup := by
    rw [hget]
    exact List.Nodup.sublist ((List.filter_sublist _).map _) hmWF
  have hNinj := lignes_pour_inj s.committed.next_lc_id s.committed.next_cont_id d2
    (get_materiels_by_ids_for_update s.committed ids) hLNodup
  have hNrefs : ∀ lc ∈ lignes_pour s.committed.next_lc_id s.committed.next_cont_id d2
      (get_materiels_by_ids_for_update s.committed ids),
      ids.contains lc.mat_id = true := by
    intro lc hlc
    have : lc.mat_id ∈ (get_materiels_by_ids_for_update s.committed ids).map
        (fun m => m.mat_id) := by
      rw [← hNmatids]
      exact List.mem_map_of_mem _ hlc
    obtain ⟨m', hm', hid⟩ := List.mem_map.mp this
    rw [← hid]
    exact ((hLmem m').mp hm').2
  have hnoOldOpen : ∀ m' ∈ get_materiels_by_ids_for_update s.committed ids,
      ¬ ∃ lc ∈ s.committed.lignes, lc.mat_id = m'.mat_id ∧
        lc.lc_dateretourreelle = none := by
    intro m' hm' hex2
    have hlou : m'.mat_statut = "Loué" := (hi1 m' ((hLmem m').mp hm').1).mpr hex2
    rw [hLdisp m' hm'] at hlou
    exact absurd hlou (by decide)
  rw [hdb]
  constructor
  · intro m2 hm2
    obtain ⟨m, hm, rfl⟩ := List.mem_map.mp hm2
    by_cases hc : ids.contains m.mat_id = true
    · rw [if_pos hc]
      rw [statut_update_statut, statut_update_mat_id]
      refine iff_of_true rfl ?_
      have hmL : m ∈ get_materiels_by_ids_for_update s.committed ids :=
        (hLmem m).mpr ⟨hm, hc⟩
      have : m.mat_id ∈ (lignes_pour s.committed.next_lc_id s.committed.next_cont_id
          d2 (get_materiels_by_ids_for_update s.committed ids)).map
          (fun lc => lc.mat_id) := by
        rw [hNmatids]
        exact List.mem_map_of_mem _ hmL
      obtain ⟨lc, hlcN, hlcid⟩ := List.mem_map.mp this
      exact ⟨lc, List.mem_append_right _ hlcN, hlcid, hNopen lc hlcN⟩
    · rw [if_neg hc]
      rw [hi1 m hm]
      constructor
      · rintro ⟨lc, hlc, hmat, hopen⟩
        exact ⟨lc, List.mem_append_left _ hlc, hmat, hopen⟩
      · rintro ⟨lc, hlc, hmat, hopen⟩
        rcases List.mem_append.mp hlc with hold | hnew
        · exact ⟨lc, hold, hmat, hopen⟩
        · exfalso
          have := hNrefs lc hnew
          rw [hmat] at this
          exact hc this
  · intro lc1 h1m lc2 h2m ho1 ho2 hmat
    rcases List.mem_append.mp h1m with ha1 | hb1 <;>
      rcases List.mem_append.mp h2m with ha2 | hb2
    · exact hi2 lc1 ha1 lc2 ha2 ho1 ho2 hmat
    · exfalso
      have : lc2.mat_id ∈ (get_materiels_by_ids_for_update s.committed ids).map
          (fun m => m.mat_id) := by
        rw [← hNmatids]
        exact List.mem_map_of_mem _ hb2
      obtain ⟨m', hm', hid⟩ := List.mem_map.mp this
      exact hnoOldOpen m' hm' ⟨lc1, ha1, by rw [hmat, ← hid], ho1⟩
    · exfalso
      have : lc1.mat_id ∈ (get_materiels_by_ids_for_update s.committed ids).map
          (fun m => m.mat_id) := by
        rw [← hNmatids]
        exact List.mem_map_of_mem _ hb1
      obtain ⟨m', hm', hid⟩ := List.mem_map.mp this
      exact hnoOldOpen m' hm' ⟨lc2, ha2, by rw [← hmat, ← hid], ho2⟩
    · exact hNinj lc1 hb1 lc2 hb2 hmat

/-- A committed restitution preserves the status/open-line
correspondence and the at-most-one-open-line property. -/
theorem restituer_preserve_inv (s s1 : Session) (lc_ids : List Nat) (d : ℤ)
    (res : List LigneContrat)
    (hi1 : StatutLoueCorrespond s.committed)
    (hi2 : AuPlusUneLigneOuverte s.committed)
    (hok : transaction_restituer_lignes s lc_ids d = (s1, .ok res)) :
    StatutLoueCorrespond s1.committed ∧ AuPlusUneLigneOuverte s1.committed := by
  obtain ⟨hne, hlen, hopenF, hs1, hres⟩ := restituer_ok_inversion s lc_ids d s1 res hok
  have hFopen : ∀ lc ∈ s.committed.lignes.filter (fun lc => lc_ids.contains lc.lc_id),
      lc.lc_dateretourreelle = none := by
    intro lc hlc
    have h := List.filter_eq_nil_iff.mp hopenF lc hlc
    cases hq : lc.lc_dateretourreelle with
    | none => rfl
    | some v =>
      rw [hq] at h
      simp at h
  rw [hs1]
  constructor
  · intro m2 hm2
    obtain ⟨m, hm, rfl⟩ := List.mem_map.mp hm2
    by_cases hcm : ((s.committed.lignes.filter (fun lc => lc_ids.contains lc.lc_id)).map
        (fun lc => lc.mat_id)).contains m.mat_id = true
    · rw [if_pos hcm, statut_update_statut, statut_update_mat_id]
      refine iff_of_false (by decide) ?_
      rintro ⟨lc2, hlc2, hmat2, hopen2⟩
      obtain ⟨lc, hlc, rfl⟩ := List.mem_map.mp hlc2
      by_cases hsel : lc_ids.contains lc.lc_id = true
      · rw [ifb_pos hsel _ _, restituer_maj_reelle] at hopen2
        exact Option.noConfusion hopen2
      · have hself := eq_false_of_ne_true hsel
        rw [ifb_neg hself _ _] at hopen2 hmat2
        have hmm : m.mat_id ∈ (s.committed.lignes.filter
            (fun lc => lc_ids.contains lc.lc_id)).map (fun lc => lc.mat_id) := by
          simpa using hcm
        obtain ⟨lcs, hlcsF, hlcsid⟩ := List.mem_map.mp hmm
        have heq := hi2 lc hlc lcs (List.mem_filter.mp hlcsF).1 hopen2
          (hFopen lcs hlcsF) (by rw [hmat2, ← hlcsid])
        rw [heq] at hsel
        exact hsel (List.mem_filter.mp hlcsF).2
    · rw [if_neg hcm]
      rw [hi1 m hm]
      constructor
      · rintro ⟨lc, hlc, hmat, hopen⟩
        have hsel : lc_ids.contains lc.lc_id = false := by
          cases hq : lc_ids.contains lc.lc_id with
          | false => rfl
          | true =>
            exfalso
            have hlcF : lc ∈ s.committed.lignes.filter
                (fun lc => lc_ids.contains lc.lc_id) := List.mem_filter.mpr ⟨hlc, hq⟩
            have hmm : m.mat_id ∈ (s.committed.lignes.filter
                (fun lc => lc_ids.contains lc.lc_id)).map (fun lc => lc.mat_id) := by
              rw [← hmat]
              exact List.mem_map_of_mem _ hlcF
            exact hcm (by simpa using hmm)
        exact ⟨lc, List.mem_map.mpr ⟨lc, hlc, ifb_neg hsel _ _⟩, hmat, hopen⟩
      · rintro ⟨lc2, hlc2, hmat2, hopen2⟩
        obtain ⟨lc, hlc, rfl⟩ := List.mem_map.mp hlc2
        by_cases hsel : lc_ids.contains lc.lc_id = true
        · rw [ifb_pos hsel _ _, restituer_maj_reelle] at hopen2
          exact Option.noConfusion hopen2
        · have hself := eq_false_of_ne_true hsel
          rw [ifb_neg hself _ _] at hopen2 hmat2
          exact ⟨lc, hlc, hmat2, hopen2⟩
  · intro lc1m h1m lc2m h2m ho1 ho2 hmat
    obtain ⟨la, hla, rfl⟩ := List.mem_map.mp h1m
    obtain ⟨lb, hlb, rfl⟩ := List.mem_map.mp h2m
    by_cases hsa : lc_ids.contains la.lc_id = true
    · rw [ifb_pos hsa _ _, restituer_maj_reelle] at ho1
      exact Option.noConfusion ho1
    · have hsa2 := eq_false_of_ne_true hsa
      by_cases hsb : lc_ids.contains lb.lc_id = true
      · rw [ifb_pos hsb _ _, restituer_maj_reelle] at ho2
        exact Option.noConfusion ho2
      · have hsb2 := eq_false_of_ne_true hsb
        rw [ifb_neg hsa2 _ _] at ho1 hmat ⊢
        rw [ifb_neg hsb2 _ _] at ho2 hmat ⊢
        exact hi2 la hla lb hlb ho1 ho2 hmat

/-- C6: whenever the status/open-line correspondence (unit "Loué" iff
some line referencing it has no actual return date) holds of the
committed state, together with the at-most-one-open-line-per-unit
property both transactions maintain, then after any committed
reservation — which opens exactly one line per rented unit — and after
any committed restitution — which closes the batch lines and releases
exactly their units — the correspondence (and the auxiliary property)
still holds. -/
theorem correspondance_statut_preserve (s s1 : Session)
    (hmWF : (s.committed.materiels.map (fun m => m.mat_id)).Nodup)
    (hi1 : StatutLoueCorrespond s.committed)
    (hi2 : AuPlusUneLigneOuverte s.committed) :
    (∀ (cid : Nat) (ids : List Nat) (d1 d2 nb : ℤ)
      (cb : Option (ℚ → ℤ → Bool → Bool → PrixDetail)) (res : ValiderResult),
      transaction_valider_location s cid ids d1 d2 nb cb = (s1, .ok res) →
      StatutLoueCorrespond s1.committed ∧ AuPlusUneLigneOuverte s1.committed) ∧
    (∀ (lc_ids : List Nat) (d : ℤ) (res : List LigneContrat),
      transaction_restituer_lignes s lc_ids d = (s1, .ok res) →
      StatutLoueCorrespond s1.committed ∧ AuPlusUneLigneOuverte s1.committed) :=
  ⟨fun cid ids d1 d2 nb cb res hok =>
    valider_preserve_inv s s1 cid ids d1 d2 nb cb res hmWF hi1 hi2 hok,
   fun lc_ids d res hok =>
    restituer_preserve_inv s s1 lc_ids d res hi1 hi2 hok⟩

/-- C6 witness: the correspondence holds after the concrete reservation
of unit 1 in `sReussite` and after the concrete restitution of line 1 in
`sRestitDup`. -/
theorem correspondance_statut_preserve_witness :
    StatutLoueCorrespond
      (transaction_valider_location sReussite 1 [1] 0 9 10 (some calculer_prix)).1.committed ∧
    StatutLoueCorrespond
      (transaction_restituer_lignes sRestitDup [1] 3).1.committed := by
  constructor
  · obtain ⟨res, hok⟩ : ∃ res,
        transaction_valider_location sReussite 1 [1] 0 9 10 (some calculer_prix) =
          ((transaction_valider_location sReussite 1 [1] 0 9 10 (some calculer_prix)).1,
            .ok res) :=
      ⟨_, rfl⟩
    exact ((correspondance_statut_preserve sReussite _ (by decide) (by decide)
      (by decide)).1 1 [1] 0 9 10 (some calculer_prix) res hok).1
  · obtain ⟨res, hok⟩ : ∃ res,
        transaction_restituer_lignes sRestitDup [1] 3 =
          ((transaction_restituer_lignes sRestitDup [1] 3).1, .ok res) :=
      ⟨_, rfl⟩
    exact ((correspondance_statut_preserve sRestitDup _ (by decide) (by decide)
      (by decide)).2 [1] 3 res hok).1

end LocaMat
